import Mathlib

/-!
# Verification of `cfs/core/management/commands/load_call_csv.py`

A shallow embedding of the CSV-loading management command, together with
theorems checking the natural-language specification against the code.

Python/pandas cell values are modelled by the inductive type `Val`; a
dataframe is a column list together with a list of rows (each row a total
map from column name to `Val`).  Django ORM operations (`get_or_create`,
`bulk_create`, `filter`, `save`) are modelled concretely on explicit list
states; fallible Python code (conversions that can raise, `bulk_create`
raising `IntegrityError`) is modelled in `Except`.
-/

/-- A Python/pandas cell value: `None`, a float `NaN`, pandas `NaT`, a
string, an int, a float (modelled as a rational), or a parsed timestamp. -/
inductive Val where
  | vNone : Val
  | vNaN : Val
  | vNaT : Val
  | vStr : String → Val
  | vInt : Int → Val
  | vFloat : Rat → Val
  | vTime : Nat → Val
deriving DecidableEq, Repr

open Val

/-- `isnan(x)`: `x is None or (type(x) == float and math.isnan(x))`.
Note that pandas `NaT` is *not* of type `float`, so `isnan` is false on it. -/
def isnan : Val → Bool
  | vNone => true
  | vNaN => true
  | _ => false

/-- Exceptions that the modelled code can raise. -/
inductive Exc where
  | integrityError : Exc
  | typeError : Exc
  | valueError : Exc
  | attributeError : Exc
deriving DecidableEq, Repr

/-- Python's `int(x)` conversion: succeeds on ints, floats (truncating
toward zero) and integer-literal strings, raises otherwise. -/
def pyToInt : Val → Except Exc Int
  | vInt n => .ok n
  | vFloat q => .ok (q.num / (q.den : Int))
  | vStr s =>
      match s.trim.toInt? with
      | some n => .ok n
      | none => .error .valueError
  | _ => .error .typeError

/-- Python's `float(x)` conversion. -/
def pyToFloat : Val → Except Exc Rat
  | vInt n => .ok (n : Rat)
  | vFloat q => .ok q
  | _ => .error .typeError

/-- `safe_int(x)`: `None` when `isnan(x)`, otherwise `int(x)`. -/
def safe_int (x : Val) : Except Exc (Option Int) :=
  if isnan x then .ok none else do return some (← pyToInt x)

/-- `safe_float(x)`: `None` when `isnan(x)`, otherwise `float(x)`. -/
def safe_float (x : Val) : Except Exc (Option Rat) :=
  if isnan x then .ok none else do return some (← pyToFloat x)

/-- `safe_datetime(x)`: `None` when `x is pd.NaT`, otherwise `x` itself
(`None` is modelled by `vNone`). -/
def safe_datetime (x : Val) : Val :=
  if x = vNaT then vNone else x

/-- `safe_zip(zip)`: `None` when `isnan(zip)`, otherwise
`zip.strip()[:5]` (raises `AttributeError` on a non-string). -/
def safe_zip (z : Val) : Except Exc (Option String) :=
  if isnan z then .ok none
  else
    match z with
    | vStr s => .ok (some ((s.trim).take 5))
    | _ => .error .attributeError

/-- Rank used to give `Val` a total order (Python only ever sorts
homogeneous collections here, so the cross-constructor order is
immaterial to the claims). -/
def Val.rank : Val → Nat
  | vNone => 0
  | vNaN => 1
  | vNaT => 2
  | vStr _ => 3
  | vInt _ => 4
  | vFloat _ => 5
  | vTime _ => 6

/-- A total `≤` on cell values: by rank, then by payload. -/
def valLE (a b : Val) : Bool :=
  if a.rank = b.rank then
    match a, b with
    | vStr s, vStr t => decide (s ≤ t)
    | vInt m, vInt n => decide (m ≤ n)
    | vFloat p, vFloat q => decide (p ≤ q)
    | vTime s, vTime t => decide (s ≤ t)
    | _, _ => true
  else decide (a.rank < b.rank)

/-- Lexicographic `≤` on pairs of cell values, as Python compares tuples. -/
def pairLE (a b : Val × Val) : Bool :=
  if a.1 = b.1 then valLE a.2 b.2 else valLE a.1 b.1

/-- Python collection interface used by `safe_sorted`: an `isnan` test and
the comparison `sorted` uses. -/
class PyColl (α : Type) where
  pnan : α → Bool
  ple : α → α → Bool

instance : PyColl Val := ⟨isnan, valLE⟩

/-- On a tuple, `type(x) == float` is false and a tuple is not `None`,
so `isnan` is false; tuples compare lexicographically. -/
instance : PyColl (Val × Val) := ⟨fun _ => false, pairLE⟩

/-- `safe_sorted(coll)`: `sorted(x for x in coll if not isnan(x))`. -/
def safe_sorted {α : Type} [PyColl α] (coll : List α) : List α :=
  (coll.filter (fun x => !PyColl.pnan x)).insertionSort
    (fun a b => PyColl.ple a b = true)

/-- The loop of `uniq_list_by_key`, with the `seen` set explicit: an
element is kept iff its key has not been seen, and its key is added to
`seen` exactly when it is kept (Python evaluates the comprehension's
filter before the `seen.add`). -/
def uniqGo {α β : Type} [DecidableEq β] (key : α → β) :
    List β → List α → List α
  | _, [] => []
  | seen, x :: xs =>
      if key x ∈ seen then uniqGo key seen xs
      else x :: uniqGo key (key x :: seen) xs

/-- `uniq_list_by_key(alist, key)`: make a list unique by a key function,
keeping the first element seen for each key. -/
def uniq_list_by_key {α β : Type} [DecidableEq β]
    (alist : List α) (key : α → β) : List α :=
  uniqGo key [] alist


/-! ## Order instances for `valLE` and `pairLE` (totality, transitivity) -/

instance : IsTotal Val (fun a b => valLE a b = true) := by
  constructor
  intro a b
  cases a <;> cases b <;> simp [valLE, Val.rank] <;> exact le_total _ _

instance : IsTrans Val (fun a b => valLE a b = true) := by
  constructor
  intro a b c h1 h2
  simp only at h1 h2
  cases a <;> cases b <;> cases c <;>
    simp_all only [valLE, Val.rank, decide_eq_true_eq, Nat.lt_irrefl,
      if_true, if_false, reduceIte, Nat.reduceEqDiff] <;>
    first
    | rfl
    | omega
    | exact le_trans h1 h2

instance : IsTotal (Val × Val) (fun a b => pairLE a b = true) := by
  constructor
  intro a b
  unfold pairLE
  by_cases h : a.1 = b.1
  · rw [if_pos h, if_pos h.symm]
    exact IsTotal.total (r := fun x y : Val => valLE x y = true) a.2 b.2
  · rw [if_neg h, if_neg (fun e => h e.symm)]
    exact IsTotal.total (r := fun x y : Val => valLE x y = true) a.1 b.1

instance : IsTrans (Val × Val) (fun a b => pairLE a b = true) := by
  have vanti : ∀ {x y : Val}, valLE x y = true → valLE y x = true → x = y := by
    intro x y hxy hyx
    cases x <;> cases y <;> simp_all [valLE, Val.rank] <;>
      first
      | omega
      | exact le_antisymm hxy hyx
      | exact String.toList_inj.mp (le_antisymm hxy hyx)
  constructor
  intro a b c h1 h2
  have vtr : ∀ {x y z : Val}, valLE x y = true → valLE y z = true →
      valLE x z = true :=
    fun hxy hyz => IsTrans.trans (r := fun x y : Val => valLE x y = true) _ _ _ hxy hyz
  simp only at h1 h2
  unfold pairLE at h1 h2 ⊢
  by_cases hab : a.1 = b.1 <;> by_cases hbc : b.1 = c.1
  · rw [if_pos hab] at h1
    rw [if_pos hbc] at h2
    rw [if_pos (hab.trans hbc)]
    exact vtr h1 h2
  · rw [if_pos hab] at h1
    rw [if_neg hbc] at h2
    rw [if_neg (fun e => hbc (hab.symm.trans e))]
    exact hab.symm ▸ h2
  · rw [if_neg hab] at h1
    rw [if_pos hbc] at h2
    rw [if_neg (fun e => hab (e.trans hbc.symm))]
    exact hbc ▸ h1
  · rw [if_neg hab] at h1
    rw [if_neg hbc] at h2
    have hac : a.1 ≠ c.1 := by
      intro e
      exact hbc (vanti h2 (e ▸ h1))
    rw [if_neg hac]
    exact vtr h1 h2
/-! ## Dataframe model -/

/-- A dataframe row (`c` in `batch.iterrows()`): a total map from column
name to cell value.  Column presence (`col in c` / `col in self.df`) is
tracked by the dataframe's column list. -/
def Row : Type := String → Val

/-- The loaded dataframe `self.df`: its column headers and its rows. -/
structure DF where
  cols : List String
  rows : List Row

/-- pandas `Series.unique()` / `DataFrame.drop_duplicates()`: the
distinct values in order of first appearance (missing values are kept;
pandas treats them as equal for deduplication). -/
def seriesUnique {α : Type} [DecidableEq α] (l : List α) : List α :=
  uniqGo id [] l

/-- Column assignment `df[name] = df[src].apply(f)`: every row gains the
computed value under `name`; the header is appended when new. -/
def DF.setCol (df : DF) (name : String) (f : Row → Val) : DF where
  cols := if name ∈ df.cols then df.cols else df.cols ++ [name]
  rows := df.rows.map (fun r => fun col => if col = name then f r else r col)

/-- The values of one column, row by row. -/
def DF.colVals (df : DF) (col : String) : List Val :=
  df.rows.map (fun r => r col)

/-- `safe_sorted(df[col].unique())`: the distinct non-missing values of a
column, sorted — the list a lookup-creation method iterates
`get_or_create` over. -/
def lookup_names (df : DF) (col : String) : List Val :=
  safe_sorted (seriesUnique (df.colVals col))

/-- Python truthiness of a cell value (the `if x[0]` filters). -/
def truthy : Val → Bool
  | vNone => false
  | vNaN => true
  | vNaT => false
  | vStr s => decide (s ≠ "")
  | vInt n => decide (n ≠ 0)
  | vFloat q => decide (q ≠ 0)
  | vTime _ => true

/-- The non-missing values of `vcol` over the rows whose `kcol` equals
`k`: the values the group's `min` ranges over. -/
def groupTexts (df : DF) (kcol vcol : String) (k : Val) : List Val :=
  ((df.rows.filter (fun r => decide (r kcol = k))).map (fun r => r vcol)).filter
    (fun v => !isnan v)

/-- Python-style `min` as a fold over the remaining elements. -/
def foldMin (w : Val) (ws : List Val) : Val :=
  ws.foldl (fun acc v => if valLE v acc then v else acc) w

/-- pandas `df.groupby(kcol)[vcol].min()`: one entry per distinct
non-missing key, keys sorted ascending, paired with the minimum of the
group's non-missing values (`NaN` when the group has none, since `min`
skips missing values). -/
def groupby_min (df : DF) (kcol vcol : String) : List (Val × Val) :=
  (safe_sorted (seriesUnique ((df.colVals kcol).filter (fun v => !isnan v)))).map
    (fun k =>
      (k, match groupTexts df kcol vcol k with
          | [] => vNaN
          | w :: ws => foldMin w ws))

/-- The `source_tuples` / `nature_tuples` / `close_tuples` lists: the
grouped `(code, min text)` pairs restricted to truthy codes. -/
def code_tuples (df : DF) (kcol vcol : String) : List (Val × Val) :=
  (groupby_min df kcol vcol).filter (fun x => truthy x.1)

/-- The `unit_departments` list of `create_primary_units`: the distinct
`(Primary Unit, Department ID)` pairs whose unit is present, sorted
(`safe_sorted` filters nothing further: a tuple is never `isnan`). -/
def unit_departments (df : DF) : List (Val × Val) :=
  safe_sorted
    ((seriesUnique (df.rows.map (fun r => (r "Primary Unit", r "Department ID")))).filter
      (fun p => !isnan p.1))

/-! ## Lookup tables and the modelled ORM -/

/-- A stored row of a description-keyed lookup table (`District`, `Beat`,
`Priority`, `City`, `Department`): an auto-assigned primary key, the
description, and — for `District` — the owning agency (`none` models a
table without an agency column). -/
structure LookupRow where
  id : Nat
  descr : Val
  agency : Option Nat := none
deriving DecidableEq, Repr

/-- A stored row of a code-keyed lookup table (`CallSource`, `Nature`,
`CloseCode`). -/
structure CodeRow where
  id : Nat
  code : Val
  descr : Val
deriving DecidableEq, Repr

/-- A stored `CallUnit` row; `department_id` is `vNone` when the unit was
created without a department. -/
structure UnitRow where
  id : Nat
  descr : Val
  agency : Nat
  department_id : Val := vNone
deriving DecidableEq, Repr

/-- Modelled Django ORM: `Model.objects.get_or_create(descr=name)`
(plus `agency=...` for `District`): return the first stored row matching
every given field, or insert a fresh row built from them. -/
def get_or_create_descr (db : List LookupRow) (ag : Option Nat) (name : Val) :
    LookupRow × List LookupRow :=
  match db.find? (fun r => decide (r.descr = name ∧ r.agency = ag)) with
  | some r => (r, db)
  | none =>
      let r : LookupRow := ⟨db.length + 1, name, ag⟩
      (r, db ++ [r])

/-- The list comprehension `[Model.objects.get_or_create(descr=name)[0]
for name in names]`: one `get_or_create` per name, in order, returning
the fetched-or-created rows and the final table. -/
def gocFold (db : List LookupRow) (ag : Option Nat) :
    List Val → List LookupRow × List LookupRow
  | [] => ([], db)
  | n :: ns =>
      let (r, db1) := get_or_create_descr db ag n
      let (rs, db2) := gocFold db1 ag ns
      (r :: rs, db2)

/-- Modelled Django ORM: `get_or_create(code=c, defaults={'descr': d})`:
match on the code only; the default description is used only when a new
row is created. -/
def get_or_create_code (db : List CodeRow) (code descr : Val) :
    CodeRow × List CodeRow :=
  match db.find? (fun r => decide (r.code = code)) with
  | some r => (r, db)
  | none =>
      let r : CodeRow := ⟨db.length + 1, code, descr⟩
      (r, db ++ [r])

/-- One `get_or_create` per `(code, min text)` tuple, in order. -/
def codeGocFold (db : List CodeRow) :
    List (Val × Val) → List CodeRow × List CodeRow
  | [] => ([], db)
  | t :: ts =>
      let (r, db1) := get_or_create_code db t.1 t.2
      let (rs, db2) := codeGocFold db1 ts
      (r :: rs, db2)

/-- Modelled Django ORM: `CallUnit.objects.get_or_create(descr=unit,
agency=..., department_id=...)`. -/
def get_or_create_unit_dept (db : List UnitRow) (ag : Nat) (descr dept : Val) :
    UnitRow × List UnitRow :=
  match db.find? (fun r =>
      decide (r.descr = descr ∧ r.agency = ag ∧ r.department_id = dept)) with
  | some r => (r, db)
  | none =>
      let r : UnitRow := ⟨db.length + 1, descr, ag, dept⟩
      (r, db ++ [r])

/-- Modelled Django ORM: `CallUnit.objects.get_or_create(descr=name,
agency=...)` — the department is not part of the match. -/
def get_or_create_unit (db : List UnitRow) (ag : Nat) (descr : Val) :
    UnitRow × List UnitRow :=
  match db.find? (fun r => decide (r.descr = descr ∧ r.agency = ag)) with
  | some r => (r, db)
  | none =>
      let r : UnitRow := ⟨db.length + 1, descr, ag, vNone⟩
      (r, db ++ [r])

/-- The `units` loop of `create_primary_units` with departments. -/
def unitDeptGocFold (db : List UnitRow) (ag : Nat) :
    List (Val × Val) → List UnitRow × List UnitRow
  | [] => ([], db)
  | p :: ps =>
      let (r, db1) := get_or_create_unit_dept db ag p.1 p.2
      let (rs, db2) := unitDeptGocFold db1 ag ps
      (r :: rs, db2)

/-- The `units` comprehension of `create_primary_units` without
departments. -/
def unitGocFold (db : List UnitRow) (ag : Nat) :
    List Val → List UnitRow × List UnitRow
  | [] => ([], db)
  | n :: ns =>
      let (r, db1) := get_or_create_unit db ag n
      let (rs, db2) := unitGocFold db1 ag ns
      (r :: rs, db2)

/-- A Python dict comprehension `{key(o): val(o) for o in objs}` read
back with `.get(x)`: later entries overwrite earlier ones, so lookup
returns the value of the last matching entry, and `None` when no key
matches. -/
def mapGet (m : List (Val × Nat)) (x : Val) : Option Nat :=
  (m.reverse.find? (fun p => decide (p.1 = x))).map (fun p => p.2)

/-- A map value or `None`, as stored back into an `<X> ID` column. -/
def optIdToVal : Option Nat → Val
  | none => vNone
  | some i => vInt (i : Int)

/-! ## The command state and the lookup-creation methods -/

/-- The mutable state of the command: the dataframe, the agency, the
lookup tables, and the trace of `self.log` lines (one per creation
method entered, mirroring the `self.log("Creating ...")` calls). -/
structure LoadState where
  df : DF
  agency : Nat
  beats : List LookupRow := []
  districts : List LookupRow := []
  cities : List LookupRow := []
  priorities : List LookupRow := []
  departments : List LookupRow := []
  sources : List CodeRow := []
  natures : List CodeRow := []
  closeCodes : List CodeRow := []
  units : List UnitRow := []
  trace : List String := []

/-- `Command.create_beats`. -/
def create_beats (st : LoadState) : LoadState :=
  let beat_names := lookup_names st.df "Beat"
  let (beats, db) := gocFold st.beats none beat_names
  let beat_map := beats.map (fun b => (b.descr, b.id))
  { st with
    trace := st.trace ++ ["Creating beats"],
    beats := db,
    df := st.df.setCol "Beat ID"
      (fun r => optIdToVal (mapGet beat_map (r "Beat"))) }

/-- `Command.create_districts` (the only description-keyed method whose
`get_or_create` also passes `agency=self.agency`). -/
def create_districts (st : LoadState) : LoadState :=
  let district_names := lookup_names st.df "District"
  let (districts, db) := gocFold st.districts (some st.agency) district_names
  let district_map := districts.map (fun d => (d.descr, d.id))
  { st with
    trace := st.trace ++ ["Creating districts"],
    districts := db,
    df := st.df.setCol "District ID"
      (fun r => optIdToVal (mapGet district_map (r "District"))) }

/-- `Command.create_cities`. -/
def create_cities (st : LoadState) : LoadState :=
  let city_names := lookup_names st.df "City"
  let (cities, db) := gocFold st.cities none city_names
  let city_map := cities.map (fun c => (c.descr, c.id))
  { st with
    trace := st.trace ++ ["Creating cities"],
    cities := db,
    df := st.df.setCol "City ID"
      (fun r => optIdToVal (mapGet city_map (r "City"))) }

/-- `Command.create_priorities`. -/
def create_priorities (st : LoadState) : LoadState :=
  let priority_names := lookup_names st.df "Priority"
  let (priorities, db) := gocFold st.priorities none priority_names
  let priority_map := priorities.map (fun p => (p.descr, p.id))
  { st with
    trace := st.trace ++ ["Creating priorities"],
    priorities := db,
    df := st.df.setCol "Priority ID"
      (fun r => optIdToVal (mapGet priority_map (r "Priority"))) }

/-- `Command.create_departments`. -/
def create_departments (st : LoadState) : LoadState :=
  let department_names := lookup_names st.df "Department"
  let (departments, db) := gocFold st.departments none department_names
  let department_map := departments.map (fun d => (d.descr, d.id))
  { st with
    trace := st.trace ++ ["Creating departments"],
    departments := db,
    df := st.df.setCol "Department ID"
      (fun r => optIdToVal (mapGet department_map (r "Department"))) }

/-- `Command.create_sources`. -/
def create_sources (st : LoadState) : LoadState :=
  let source_tuples := code_tuples st.df "Source Code" "Source Text"
  let (sources, db) := codeGocFold st.sources source_tuples
  let source_map := sources.map (fun s => (s.code, s.id))
  { st with
    trace := st.trace ++ ["Creating sources"],
    sources := db,
    df := st.df.setCol "Source ID"
      (fun r => optIdToVal (mapGet source_map (r "Source Code"))) }

/-- `Command.create_natures`. -/
def create_natures (st : LoadState) : LoadState :=
  let nature_tuples := code_tuples st.df "Nature Code" "Nature Text"
  let (natures, db) := codeGocFold st.natures nature_tuples
  let nature_map := natures.map (fun n => (n.code, n.id))
  { st with
    trace := st.trace ++ ["Creating natures"],
    natures := db,
    df := st.df.setCol "Nature ID"
      (fun r => optIdToVal (mapGet nature_map (r "Nature Code"))) }

/-- `Command.create_close_codes`. -/
def create_close_codes (st : LoadState) : LoadState :=
  let close_tuples := code_tuples st.df "Close Code" "Close Text"
  let (close_codes, db) := codeGocFold st.closeCodes close_tuples
  let close_code_map := close_codes.map (fun cc => (cc.code, cc.id))
  { st with
    trace := st.trace ++ ["Creating close codes"],
    closeCodes := db,
    df := st.df.setCol "Close Code ID"
      (fun r => optIdToVal (mapGet close_code_map (r "Close Code"))) }

/-- `Command.create_primary_units`: when a `Department ID` column exists,
units are considered per department; otherwise only unit names are. -/
def create_primary_units (st : LoadState) : LoadState :=
  if "Department ID" ∈ st.df.cols then
    let uds := unit_departments st.df
    let (units, db) := unitDeptGocFold st.units st.agency uds
    let unit_map := units.map (fun u => (u.descr, u.id))
    { st with
      trace := st.trace ++ ["Creating primary units"],
      units := db,
      df := st.df.setCol "Primary Unit ID"
        (fun r => optIdToVal (mapGet unit_map (r "Primary Unit"))) }
  else
    let unit_names := lookup_names st.df "Primary Unit"
    let (units, db) := unitGocFold st.units st.agency unit_names
    let unit_map := units.map (fun u => (u.descr, u.id))
    { st with
      trace := st.trace ++ ["Creating primary units"],
      units := db,
      df := st.df.setCol "Primary Unit ID"
        (fun r => optIdToVal (mapGet unit_map (r "Primary Unit"))) }

/-- The `creation_methods` table of `Command.handle`: guard column and
method, in source order. -/
def creation_methods : List (String × (LoadState → LoadState)) :=
  [("District", create_districts),
   ("Beat", create_beats),
   ("Priority", create_priorities),
   ("Nature Code", create_natures),
   ("Close Code", create_close_codes),
   ("Source Code", create_sources),
   ("City", create_cities),
   ("Department", create_departments),
   ("Primary Unit", create_primary_units)]

/-- The `for col, method in creation_methods: if col in self.df: method()`
loop of `Command.handle`. -/
def run_creation_methods (st : LoadState) : LoadState :=
  creation_methods.foldl
    (fun st cm => if cm.1 ∈ st.df.cols then cm.2 st else st) st

/-! ## Calls: the `Call` model, `update_call` and `create_calls` -/

/-- `self.batch_size = 2000`. -/
def batch_size : Nat := 2000

/-- A stored `Call` row, with the fields this command reads or writes.
`derived` models the state recomputed by `update_derived_fields`. -/
structure Call where
  call_id : Val
  agency : Nat
  time_received : Val
  first_unit_dispatch : Val
  first_unit_arrive : Val
  time_closed : Val
  street_address : Val
  zip_code : Option String
  nature_id : Option Int
  city_id : Option Int
  priority_id : Option Int
  district_id : Option Int
  beat_id : Option Int
  call_source_id : Option Int
  close_code_id : Option Int
  department_id : Option Int
  primary_unit_id : Option Int
  geox : Option Rat
  geoy : Option Rat
  derived : Nat
deriving DecidableEq, Repr

/-- The exact keyword-argument set `create_calls` passes to
`update_call` — note: no `call_id`, no `department_id`, no
`primary_unit_id`. -/
structure UpdateKwargs where
  agency : Nat
  time_received : Val
  first_unit_dispatch : Val
  first_unit_arrive : Val
  time_closed : Val
  street_address : Val
  zip_code : Option String
  nature_id : Option Int
  city_id : Option Int
  priority_id : Option Int
  district_id : Option Int
  beat_id : Option Int
  call_source_id : Option Int
  close_code_id : Option Int
  geox : Option Rat
  geoy : Option Rat
deriving DecidableEq, Repr

/-- `safe_get = lambda col: c[col] if col in c else None`. -/
def safe_get (cols : List String) (c : Row) (col : String) : Val :=
  if col ∈ cols then c col else vNone

/-- Modelled from the spec: `Call.update_derived_fields` is defined in
`core.models`, which is not part of this repository snapshot; the spec
records only that calls recompute derived state before being saved.  It
is modelled as bumping a dedicated derived component, leaving every
other field unchanged. -/
def update_derived_fields (c : Call) : Call :=
  { c with derived := c.derived + 1 }

/-- `Command.update_call(call, **kwargs)`: set every passed keyword
argument on the call, recompute derived fields, and save (persistence
is the caller's list update). -/
def update_call (call : Call) (k : UpdateKwargs) : Call :=
  update_derived_fields
    { call with
      agency := k.agency,
      time_received := k.time_received,
      first_unit_dispatch := k.first_unit_dispatch,
      first_unit_arrive := k.first_unit_arrive,
      time_closed := k.time_closed,
      street_address := k.street_address,
      zip_code := k.zip_code,
      nature_id := k.nature_id,
      city_id := k.city_id,
      priority_id := k.priority_id,
      district_id := k.district_id,
      beat_id := k.beat_id,
      call_source_id := k.call_source_id,
      close_code_id := k.close_code_id,
      geox := k.geox,
      geoy := k.geoy }

/-- The converted keyword arguments `create_calls` builds from row `c`
for an update. -/
def rowKwargs (ag : Nat) (cols : List String) (c : Row) :
    Except Exc UpdateKwargs := do
  let zip ← safe_zip (safe_get cols c "Zip")
  let nid ← safe_int (safe_get cols c "Nature ID")
  let cid ← safe_int (safe_get cols c "City ID")
  let pid ← safe_int (safe_get cols c "Priority ID")
  let did ← safe_int (safe_get cols c "District ID")
  let bid ← safe_int (safe_get cols c "Beat ID")
  let sid ← safe_int (safe_get cols c "Source ID")
  let ccid ← safe_int (safe_get cols c "Close Code ID")
  let gx ← safe_float (c "Longitude")
  let gy ← safe_float (c "Latitude")
  return { agency := ag,
           time_received := safe_datetime (c "Time Received"),
           first_unit_dispatch := safe_datetime (c "Time Dispatched"),
           first_unit_arrive := safe_datetime (c "Time Arrived"),
           time_closed := safe_datetime (c "Time Closed"),
           street_address := safe_get cols c "Street Address",
           zip_code := zip,
           nature_id := nid,
           city_id := cid,
           priority_id := pid,
           district_id := did,
           beat_id := bid,
           call_source_id := sid,
           close_code_id := ccid,
           geox := gx,
           geoy := gy }

/-- Construction of a new `Call(...)` from row `c`, followed by
`call.update_derived_fields()`; unlike an update this also sets
`department_id` and `primary_unit_id` from the CSV. -/
def buildCall (ag : Nat) (cols : List String) (c : Row) : Except Exc Call := do
  let k ← rowKwargs ag cols c
  let dept ← safe_int (safe_get cols c "Department ID")
  let pu ← safe_int (safe_get cols c "Primary Unit ID")
  return update_derived_fields
    { call_id := c "Internal ID",
      agency := k.agency,
      time_received := k.time_received,
      first_unit_dispatch := k.first_unit_dispatch,
      first_unit_arrive := k.first_unit_arrive,
      time_closed := k.time_closed,
      street_address := k.street_address,
      zip_code := k.zip_code,
      nature_id := k.nature_id,
      city_id := k.city_id,
      priority_id := k.priority_id,
      district_id := k.district_id,
      beat_id := k.beat_id,
      call_source_id := k.call_source_id,
      close_code_id := k.close_code_id,
      department_id := dept,
      primary_unit_id := pu,
      geox := k.geox,
      geoy := k.geoy,
      derived := 0 }

/-- One iteration of the `for idx, c in batch.iterrows()` loop over the
accumulator (stored calls, pending new calls): a row whose `Internal ID`
is already stored is never turned into a new `Call` (it is updated in
place when `update` is set, left alone otherwise); any other row builds
a new call appended to the pending list. -/
def processRow (upd : Bool) (ag : Nat) (cols : List String)
    (acc : List Call × List Call) (c : Row) :
    Except Exc (List Call × List Call) := do
  if acc.1.any (fun s => decide (s.call_id = c "Internal ID")) then
    if upd then
      let k ← rowKwargs ag cols c
      return (acc.1.map (fun s =>
        if s.call_id = c "Internal ID" then update_call s k else s), acc.2)
    else
      return acc
  else
    let call ← buildCall ag cols c
    return (acc.1, acc.2 ++ [call])

/-- The whole row loop over one batch. -/
def buildBatch (upd : Bool) (ag : Nat) (cols : List String) :
    List Call × List Call → List Row → Except Exc (List Call × List Call)
  | acc, [] => .ok acc
  | acc, c :: rest => do
      buildBatch upd ag cols (← processRow upd ag cols acc c) rest

/-- The call table plus ghost instrumentation: `bulkLog` records the
argument of every `bulk_create` attempt and `batchLog` every processed
batch slice. -/
structure CallDB where
  calls : List Call
  bulkLog : List (List Call) := []
  batchLog : List (List Row) := []

/-- Modelled Django ORM: `Call.objects.bulk_create(objs)` inserts all
objects in one statement; a duplicate primary key — within the batch or
against stored rows — raises `IntegrityError` and inserts nothing. -/
def bulk_create_raw (stored objs : List Call) : Except Exc (List Call) :=
  if objs.any (fun c => stored.any (fun s => decide (s.call_id = c.call_id)))
      || !(decide (objs.map (fun c => c.call_id)).Nodup) then
    .error .integrityError
  else .ok (stored ++ objs)

/-- The `try/except IntegrityError` block of `create_calls`: one
`bulk_create`; on `IntegrityError` the pending list is reduced by
`uniq_list_by_key` on `call_id` and `bulk_create` is attempted exactly
once more, with no surrounding handler; any other exception is not
caught. -/
def bulk_with_retry (db : CallDB) (calls : List Call) : Except Exc CallDB :=
  match bulk_create_raw db.calls calls with
  | .ok stored =>
      .ok { db with calls := stored, bulkLog := db.bulkLog ++ [calls] }
  | .error .integrityError =>
      let calls2 := uniq_list_by_key calls (fun call => call.call_id)
      match bulk_create_raw db.calls calls2 with
      | .ok stored =>
          .ok { db with calls := stored, bulkLog := db.bulkLog ++ [calls, calls2] }
      | .error e2 => .error e2
  | .error e => .error e

/-- One iteration of the `while` loop body: build the batch's updates
and pending calls, then run the guarded `bulk_create`. -/
def runBatch (upd : Bool) (ag : Nat) (cols : List String)
    (db : CallDB) (batch : List Row) : Except Exc CallDB := do
  let acc ← buildBatch upd ag cols (db.calls, []) batch
  bulk_with_retry
    { db with calls := acc.1, batchLog := db.batchLog ++ [batch] } acc.2

/-- The `while start < len(self.df)` loop of `create_calls`: slice
`df[start:start + batch_size]`, process it, and advance `start` by
`batch_size` on both the success and the retry path; the loop
terminates because the measure `rows.length - start` decreases, which
needs exactly that both branches advance `start` by the positive
`batch_size`. -/
def create_calls_loop (upd : Bool) (ag : Nat) (cols : List String)
    (rows : List Row) (start : Nat) (db : CallDB) : Except Exc CallDB :=
  if _h : start < rows.length then
    match runBatch upd ag cols db ((rows.drop start).take batch_size) with
    | .ok db1 => create_calls_loop upd ag cols rows (start + batch_size) db1
    | .error e => .error e
  else .ok db
termination_by rows.length - start
decreasing_by
  simp only [batch_size]
  omega

/-- `Command.create_calls(update)`. -/
def create_calls (upd : Bool) (ag : Nat) (cols : List String)
    (rows : List Row) (db : CallDB) : Except Exc CallDB :=
  create_calls_loop upd ag cols rows 0 db

/-- `Command.handle` after the CSV is loaded: run the guarded creation
methods, then insert the call records. -/
def handle_load (upd : Bool) (stored : List Call) (st : LoadState) :
    Except Exc CallDB :=
  create_calls upd (run_creation_methods st).agency
    (run_creation_methods st).df.cols (run_creation_methods st).df.rows
    ⟨stored, [], []⟩

/-- The consecutive `batch_size`-sized slices of a list, the last one
possibly shorter: the intended partition of the dataframe's rows. -/
def chunksBS {α : Type} : List α → List (List α)
  | [] => []
  | x :: xs =>
      ((x :: xs).take batch_size) :: chunksBS ((x :: xs).drop batch_size)
termination_by l => l.length
decreasing_by
  simp only [List.length_drop, List.length_cons, batch_size]
  omega

/-- The `(guard column, log line)` table of the creation methods, in
source order. -/
def creation_log_table : List (String × String) :=
  [("District", "Creating districts"),
   ("Beat", "Creating beats"),
   ("Priority", "Creating priorities"),
   ("Nature Code", "Creating natures"),
   ("Close Code", "Creating close codes"),
   ("Source Code", "Creating sources"),
   ("City", "Creating cities"),
   ("Department", "Creating departments"),
   ("Primary Unit", "Creating primary units")]

/-- The nine guard column headers. -/
def creation_guards : List String := creation_log_table.map (fun p => p.1)

/-- `creation_methods` paired with each method's log line, for stating
the trace theorem. -/
def creation_table :
    List ((String × (LoadState → LoadState)) × String) :=
  [(("District", create_districts), "Creating districts"),
   (("Beat", create_beats), "Creating beats"),
   (("Priority", create_priorities), "Creating priorities"),
   (("Nature Code", create_natures), "Creating natures"),
   (("Close Code", create_close_codes), "Creating close codes"),
   (("Source Code", create_sources), "Creating sources"),
   (("City", create_cities), "Creating cities"),
   (("Department", create_departments), "Creating departments"),
   (("Primary Unit", create_primary_units), "Creating primary units")]

/-! ## Concrete example inputs used by witnesses and counterexamples -/

/-- An example row carrying a primary unit and a department id. -/
def exRowUD (u d : Val) : Row := fun col =>
  if col = "Primary Unit" then u
  else if col = "Department ID" then d
  else vNone

/-- A dataframe in which unit `A` appears under two departments. -/
def exdfC4 : DF :=
  ⟨["Primary Unit", "Department ID"],
   [exRowUD (vStr "A") (vInt 1), exRowUD (vStr "A") (vInt 2)]⟩

/-- Command state over `exdfC4`. -/
def exStC4 : LoadState := { df := exdfC4, agency := 1 }

/-- An example row with district, primary unit and department id. -/
def exRow5 (d u dep : Val) : Row := fun col =>
  if col = "District" then d
  else if col = "Primary Unit" then u
  else if col = "Department ID" then dep
  else vNone

/-- District and unit data with missing values and a unit shared by two
departments. -/
def exdf5 : DF :=
  ⟨["District", "Primary Unit", "Department ID"],
   [exRow5 (vStr "D1") (vStr "A") (vInt 1),
    exRow5 vNaN (vStr "A") (vInt 2),
    exRow5 (vStr "D2") vNaN (vInt 1)]⟩

/-- Command state over `exdf5`. -/
def exSt5 : LoadState := { df := exdf5, agency := 1 }

/-- An example row carrying a source code and source text. -/
def exRowST (k v : Val) : Row := fun col =>
  if col = "Source Code" then k
  else if col = "Source Text" then v
  else vNone

/-- Source codes with a shared code, an empty (falsy) code and a missing
code. -/
def exdf6 : DF :=
  ⟨["Source Code", "Source Text"],
   [exRowST (vStr "E") (vStr "E911"),
    exRowST (vStr "E") (vStr "Call"),
    exRowST (vStr "") (vStr "empty"),
    exRowST vNaN (vStr "missing")]⟩

/-- Command state over `exdf6`. -/
def exSt6 : LoadState := { df := exdf6, agency := 1 }

/-- A stored example call. -/
def exCallA : Call :=
  { call_id := vStr "1", agency := 1, time_received := vNone,
    first_unit_dispatch := vNone, first_unit_arrive := vNone,
    time_closed := vNone, street_address := vNone, zip_code := none,
    nature_id := none, city_id := none, priority_id := none,
    district_id := none, beat_id := none, call_source_id := none,
    close_code_id := none, department_id := some 7,
    primary_unit_id := some 8, geox := none, geoy := none, derived := 0 }

/-- An example CSV row: only `Internal ID` is present, the rest missing. -/
def exRowID (i : Val) : Row := fun col =>
  if col = "Internal ID" then i else vNaN

/-- The call `buildCall` constructs from `exRowID (vStr "1")` with no
known columns. -/
def exCallBuilt : Call :=
  { call_id := vStr "1", agency := 1, time_received := vNaN,
    first_unit_dispatch := vNaN, first_unit_arrive := vNaN,
    time_closed := vNaN, street_address := vNone, zip_code := none,
    nature_id := none, city_id := none, priority_id := none,
    district_id := none, beat_id := none, call_source_id := none,
    close_code_id := none, department_id := none,
    primary_unit_id := none, geox := none, geoy := none, derived := 1 }

/-- An example keyword-argument record. -/
def exK : UpdateKwargs :=
  { agency := 2, time_received := vTime 5, first_unit_dispatch := vNone,
    first_unit_arrive := vNone, time_closed := vNone,
    street_address := vStr "Main St", zip_code := some "27701",
    nature_id := some 1, city_id := some 2, priority_id := some 3,
    district_id := some 4, beat_id := some 5, call_source_id := some 6,
    close_code_id := some 7, geox := some 3, geoy := some 4 }

/-- An empty call table. -/
def exDb2 : CallDB := { calls := [] }

/-- A call table already containing `exCallA`. -/
def exDb2b : CallDB := { calls := [exCallA] }

/-- Example rows for the batching witness. -/
def exRows1 : List Row := [exRowID (vStr "1"), exRowID (vStr "2")]
/-- The second component `groupby_min` computes for key `k`. -/
def groupMinVal (df : DF) (kcol vcol : String) (k : Val) : Val :=
  match groupTexts df kcol vcol k with
  | [] => vNaN
  | w :: ws => foldMin w ws

/-! ## Properties of `uniq_list_by_key` -/

theorem uniqGo_sublist {α β : Type} [DecidableEq β] (key : α → β)
    (seen : List β) (l : List α) : List.Sublist (uniqGo key seen l) l := by
  induction l generalizing seen with
  | nil => simp [uniqGo]
  | cons x xs ih =>
    rw [uniqGo]
    split
    · exact List.Sublist.cons x (ih seen)
    · exact List.Sublist.cons₂ x (ih _)

theorem uniqGo_filter {α β : Type} [DecidableEq β] (key : α → β) (b : β)
    (seen : List β) (l : List α) :
    (uniqGo key seen l).filter (fun a => decide (key a = b)) =
      if b ∈ seen then []
      else (l.filter (fun a => decide (key a = b))).take 1 := by
  induction l generalizing seen with
  | nil => simp [uniqGo]
  | cons x xs ih =>
    rw [uniqGo]
    by_cases hx : key x ∈ seen
    · rw [if_pos hx, ih]
      by_cases hb : b ∈ seen
      · simp [hb]
      · have hxb : ¬ (key x = b) := fun e => hb (e ▸ hx)
        simp [hb, List.filter_cons, hxb]
    · rw [if_neg hx]
      simp only [List.filter_cons]
      by_cases hxb : key x = b
      · have hb : ¬ b ∈ seen := hxb ▸ hx
        rw [ih]
        simp [hxb, hb]
      · rw [ih]
        by_cases hb : b ∈ seen <;>
          · simp [hxb, hb]
            try exact fun e => absurd e.symm hxb

theorem uniqGo_key_not_seen {α β : Type} [DecidableEq β] (key : α → β)
    (seen : List β) (l : List α) (a : α) (ha : a ∈ uniqGo key seen l) :
    key a ∉ seen := by
  induction l generalizing seen with
  | nil => simp [uniqGo] at ha
  | cons x xs ih =>
    rw [uniqGo] at ha
    by_cases hx : key x ∈ seen
    · rw [if_pos hx] at ha
      exact ih seen ha
    · rw [if_neg hx] at ha
      rcases List.mem_cons.mp ha with rfl | h
      · exact hx
      · exact fun hs => ih _ h (List.mem_cons_of_mem _ hs)

theorem uniqGo_keys_nodup {α β : Type} [DecidableEq β] (key : α → β)
    (seen : List β) (l : List α) : ((uniqGo key seen l).map key).Nodup := by
  induction l generalizing seen with
  | nil => simp [uniqGo]
  | cons x xs ih =>
    rw [uniqGo]
    by_cases hx : key x ∈ seen
    · rw [if_pos hx]
      exact ih seen
    · rw [if_neg hx]
      rw [List.map_cons, List.nodup_cons]
      refine ⟨?_, ih _⟩
      intro hmem
      rcases List.mem_map.mp hmem with ⟨a, ha, hkey⟩
      exact uniqGo_key_not_seen key _ xs a ha (hkey ▸ List.mem_cons_self _ _)

theorem uniqGo_idem {α β : Type} [DecidableEq β] (key : α → β)
    (seen : List β) (l : List α) :
    uniqGo key seen (uniqGo key seen l) = uniqGo key seen l := by
  induction l generalizing seen with
  | nil => simp [uniqGo]
  | cons x xs ih =>
    rw [uniqGo]
    by_cases hx : key x ∈ seen
    · rw [if_pos hx]
      exact ih seen
    · rw [if_neg hx, uniqGo, if_neg hx]
      rw [ih]

/-- C8: for every list and key function, `uniq_list_by_key` returns the
subsequence of the input keeping exactly the first element for each
distinct key (its filter at any key `b` is the first element of the
input's filter at `b`), in the original order (it is a sublist); the keys
of the result are pairwise distinct and the function is idempotent. -/
theorem C8_uniq_list_by_key_first_occurrence {α β : Type} [DecidableEq β]
    (alist : List α) (key : α → β) :
    List.Sublist (uniq_list_by_key alist key) alist ∧
    (∀ b : β, (uniq_list_by_key alist key).filter (fun a => decide (key a = b)) =
      (alist.filter (fun a => decide (key a = b))).take 1) ∧
    ((uniq_list_by_key alist key).map key).Nodup ∧
    uniq_list_by_key (uniq_list_by_key alist key) key = uniq_list_by_key alist key := by
  refine ⟨uniqGo_sublist key [] alist, fun b => ?_,
    uniqGo_keys_nodup key [] alist, uniqGo_idem key [] alist⟩
  simpa using uniqGo_filter key b [] alist

/-- C9: as stated, the claim that `safe_datetime` returns `None` exactly
for pandas `NaT` is false: `safe_datetime(None)` is also `None` (the
input is returned unchanged and the input is already `None`). -/
theorem C9_counterexample :
    ¬ (∀ x : Val, safe_datetime x = vNone ↔ x = vNaT) := by
  intro h
  exact absurd ((h vNone).mp rfl) (by decide)

/-- C9 (amended): each `safe_*` helper is total on missing data: on `None`
or float `NaN` inputs, `safe_int`, `safe_float` and `safe_zip` return
`None` without raising (the `int`/`float`/`strip` conversions are never
reached); `safe_datetime` returns `None` exactly for `NaT` or `None`
inputs (it maps `NaT` to `None` and passes anything else through
unchanged); and on a present string `safe_zip` returns the
whitespace-stripped value truncated to its first 5 characters. -/
theorem C9_safe_conversions_total (x : Val) (s : String) :
    (isnan x = true →
      safe_int x = .ok none ∧ safe_float x = .ok none ∧ safe_zip x = .ok none) ∧
    (safe_datetime x = vNone ↔ (x = vNaT ∨ x = vNone)) ∧
    safe_zip (vStr s) = .ok (some ((s.trim).take 5)) := by
  refine ⟨fun h => ?_, ?_, ?_⟩
  · simp [safe_int, safe_float, safe_zip, h]
  · cases x <;> simp [safe_datetime]
  · simp [safe_zip, isnan]

/-- C9 witness: the amended theorem applied at `NaN`, `None` and a
concrete zip string. -/
theorem C9_safe_conversions_total_witness :
    safe_int vNaN = .ok none ∧ safe_float vNaN = .ok none ∧
    safe_zip vNaN = .ok none ∧
    (safe_datetime vNone = vNone ↔ (vNone = vNaT ∨ vNone = vNone)) ∧
    safe_zip (vStr " 277011234 ") = .ok (some ((" 277011234 ".trim).take 5)) := by
  have h := C9_safe_conversions_total vNaN " 277011234 "
  have h2 := C9_safe_conversions_total vNone " 277011234 "
  exact ⟨(h.1 rfl).1, (h.1 rfl).2.1, (h.1 rfl).2.2, h2.2.1, h.2.2⟩


/-! ## `safe_sorted`, `seriesUnique`, `mapGet`, `foldMin` -/

theorem safe_sorted_sorted {α : Type} [PyColl α]
    [IsTotal α (fun a b => PyColl.ple a b = true)]
    [IsTrans α (fun a b => PyColl.ple a b = true)] (coll : List α) :
    (safe_sorted coll).Sorted (fun a b => PyColl.ple a b = true) :=
  List.sorted_insertionSort _ _

theorem safe_sorted_perm {α : Type} [PyColl α] (coll : List α) :
    (safe_sorted coll).Perm (coll.filter (fun x => !PyColl.pnan x)) :=
  List.perm_insertionSort _ _

theorem mem_safe_sorted {α : Type} [PyColl α] (coll : List α) (x : α) :
    x ∈ safe_sorted coll ↔ (x ∈ coll ∧ PyColl.pnan x = false) := by
  rw [(safe_sorted_perm coll).mem_iff, List.mem_filter]
  simp

theorem safe_sorted_nodup {α : Type} [PyColl α] (coll : List α)
    (h : coll.Nodup) : (safe_sorted coll).Nodup :=
  (safe_sorted_perm coll).nodup_iff.mpr (h.filter _)

theorem uniqGo_id_mem {α : Type} [DecidableEq α] (seen l : List α) (a : α) :
    a ∈ uniqGo id seen l ↔ (a ∈ l ∧ a ∉ seen) := by
  induction l generalizing seen with
  | nil => simp [uniqGo]
  | cons x xs ih =>
    rw [uniqGo]
    simp only [id_eq]
    by_cases hx : x ∈ seen
    · rw [if_pos hx, ih]
      constructor
      · rintro ⟨h1, h2⟩
        exact ⟨List.mem_cons_of_mem _ h1, h2⟩
      · rintro ⟨h1, h2⟩
        rcases List.mem_cons.mp h1 with rfl | h1
        · exact absurd hx h2
        · exact ⟨h1, h2⟩
    · rw [if_neg hx]
      constructor
      · intro hmem
        rcases List.mem_cons.mp hmem with rfl | hmem1
        · exact ⟨List.mem_cons_self _ _, hx⟩
        · rcases (ih (x :: seen)).mp hmem1 with ⟨h1, h2⟩
          exact ⟨List.mem_cons_of_mem _ h1,
            fun hs => h2 (List.mem_cons_of_mem _ hs)⟩
      · rintro ⟨h1, h2⟩
        rcases List.mem_cons.mp h1 with rfl | h1
        · exact List.mem_cons_self _ _
        · by_cases hax : a = x
          · exact hax ▸ List.mem_cons_self _ _
          · refine List.mem_cons_of_mem _ ((ih (x :: seen)).mpr ⟨h1, fun hs => ?_⟩)
            rcases List.mem_cons.mp hs with h | h
            · exact hax h
            · exact h2 h

theorem mem_seriesUnique {α : Type} [DecidableEq α] (l : List α) (a : α) :
    a ∈ seriesUnique l ↔ a ∈ l := by
  rw [seriesUnique, uniqGo_id_mem]
  exact and_iff_left (List.not_mem_nil a)

theorem seriesUnique_nodup {α : Type} [DecidableEq α] (l : List α) :
    (seriesUnique l).Nodup := by
  have h := uniqGo_keys_nodup id [] l
  simpa [seriesUnique] using h

theorem mapGet_eq_some {m : List (Val × Nat)} {x : Val} {i : Nat}
    (h : mapGet m x = some i) : ∃ p ∈ m, p.1 = x ∧ p.2 = i := by
  unfold mapGet at h
  cases hf : m.reverse.find? (fun p => decide (p.1 = x)) with
  | none => rw [hf] at h; simp at h
  | some p =>
    rw [hf] at h
    simp only [Option.map_some'] at h
    have hp := List.find?_some hf
    have hm := List.mem_reverse.mp (List.mem_of_find?_eq_some hf)
    simp only [decide_eq_true_eq] at hp
    exact ⟨p, hm, hp, Option.some_injective _ h⟩

theorem mapGet_isSome {m : List (Val × Nat)} {x : Val}
    (h : x ∈ m.map (fun p => p.1)) : ∃ i, mapGet m x = some i := by
  unfold mapGet
  rcases List.mem_map.mp h with ⟨p, hp, hpx⟩
  have hex : (m.reverse.find? (fun q => decide (q.1 = x))).isSome = true := by
    rw [List.find?_isSome]
    exact ⟨p, List.mem_reverse.mpr hp, by simp [hpx]⟩
  rcases Option.isSome_iff_exists.mp hex with ⟨q, hq⟩
  exact ⟨q.2, by rw [hq]; rfl⟩

theorem mapGet_eq_none {m : List (Val × Nat)} {x : Val}
    (h : x ∉ m.map (fun p => p.1)) : mapGet m x = none := by
  unfold mapGet
  rw [List.find?_eq_none.mpr]
  · rfl
  · intro p hp
    simp only [decide_eq_true_eq]
    intro hpx
    exact h (List.mem_map.mpr ⟨p, List.mem_reverse.mp hp, hpx⟩)

theorem foldMin_spec (ws : List Val) : ∀ w : Val,
    foldMin w ws ∈ w :: ws ∧ ∀ t ∈ w :: ws, valLE (foldMin w ws) t = true := by
  induction ws with
  | nil =>
    intro w
    refine ⟨List.mem_singleton.mpr rfl, ?_⟩
    intro t ht
    rw [List.mem_singleton.mp ht]
    rcases IsTotal.total (r := fun a b : Val => valLE a b = true) w w with h | h <;>
      exact h
  | cons v vs ih =>
    intro w
    have hstep : foldMin w (v :: vs) = foldMin (if valLE v w then v else w) vs := rfl
    rcases ih (if valLE v w then v else w) with ⟨hmem, hle⟩
    have hw : valLE (foldMin (if valLE v w then v else w) vs) w = true := by
      by_cases hvw : valLE v w = true
      · exact IsTrans.trans (r := fun a b : Val => valLE a b = true) _ _ _
          (by simpa [hvw] using hle _ (List.mem_cons_self _ _)) hvw
      · simpa [hvw] using hle _ (List.mem_cons_self _ _)
    have hv : valLE (foldMin (if valLE v w then v else w) vs) v = true := by
      by_cases hvw : valLE v w = true
      · simpa [hvw] using hle _ (List.mem_cons_self _ _)
      · have hwv : valLE w v = true := by
          rcases IsTotal.total (r := fun a b : Val => valLE a b = true) v w with h | h
          · exact absurd h hvw
          · exact h
        exact IsTrans.trans (r := fun a b : Val => valLE a b = true) _ _ _
          (by simpa [hvw] using hle _ (List.mem_cons_self _ _)) hwv
    constructor
    · rw [hstep]
      rcases List.mem_cons.mp hmem with he | hm
      · by_cases hvw : valLE v w = true <;> simp_all [List.mem_cons]
      · exact List.mem_cons_of_mem _ (List.mem_cons_of_mem _ hm)
    · intro t ht
      rw [hstep]
      rcases List.mem_cons.mp ht with rfl | ht1
      · exact hw
      · rcases List.mem_cons.mp ht1 with rfl | ht2
        · exact hv
        · exact hle _ (List.mem_cons_of_mem _ ht2)

/-! ## Properties of the `get_or_create` folds -/

theorem get_or_create_descr_spec (db : List LookupRow) (ag : Option Nat) (n : Val) :
    (get_or_create_descr db ag n).1.descr = n ∧
    (get_or_create_descr db ag n).1 ∈ (get_or_create_descr db ag n).2 ∧
    ∃ ext, (get_or_create_descr db ag n).2 = db ++ ext := by
  unfold get_or_create_descr
  cases hf : db.find? (fun r => decide (r.descr = n ∧ r.agency = ag)) with
  | none =>
    refine ⟨?_, ?_, ⟨[⟨db.length + 1, n, ag⟩], ?_⟩⟩ <;> simp [hf]
  | some r =>
    have hp := List.find?_some hf
    have hm := List.mem_of_find?_eq_some hf
    simp only [decide_eq_true_eq] at hp
    refine ⟨?_, ?_, ⟨[], ?_⟩⟩ <;> simp only [hf]
    · exact hp.1
    · exact hm
    · simp

theorem gocFold_spec (ag : Option Nat) :
    ∀ (names : List Val) (db : List LookupRow),
    ((gocFold db ag names).1.map (fun r => r.descr) = names) ∧
    (∃ ext, (gocFold db ag names).2 = db ++ ext) ∧
    (∀ r ∈ (gocFold db ag names).1, r ∈ (gocFold db ag names).2) := by
  intro names
  induction names with
  | nil =>
    intro db
    exact ⟨rfl, ⟨[], by simp [gocFold]⟩, by simp [gocFold]⟩
  | cons n ns ih =>
    intro db
    rcases hg : get_or_create_descr db ag n with ⟨r, db1⟩
    have hspec := get_or_create_descr_spec db ag n
    rw [hg] at hspec
    dsimp only at hspec
    rcases hspec with ⟨hdescr, hmem, ⟨ext1, hext1⟩⟩
    rcases he : gocFold db1 ag ns with ⟨rs, db2⟩
    have ihh := ih db1
    rw [he] at ihh
    dsimp only at ihh
    rcases ihh with ⟨ih1, ⟨ext2, hext2⟩, ih3⟩
    have hunfold : gocFold db ag (n :: ns) = (r :: rs, db2) := by
      simp [gocFold, hg, he]
    rw [hunfold]
    dsimp only
    refine ⟨?_, ?_, ?_⟩
    · simp only [List.map_cons, ih1, hdescr]
    · exact ⟨ext1 ++ ext2, by rw [hext2, hext1, List.append_assoc]⟩
    · intro r' hr'
      rcases List.mem_cons.mp hr' with rfl | hr'
      · rw [hext2]
        exact List.mem_append_left _ hmem
      · exact ih3 r' hr'

theorem get_or_create_unit_dept_spec (db : List UnitRow) (ag : Nat) (u d : Val) :
    (get_or_create_unit_dept db ag u d).1.descr = u ∧
    (get_or_create_unit_dept db ag u d).1 ∈ (get_or_create_unit_dept db ag u d).2 ∧
    ∃ ext, (get_or_create_unit_dept db ag u d).2 = db ++ ext := by
  unfold get_or_create_unit_dept
  cases hf : db.find? (fun r =>
      decide (r.descr = u ∧ r.agency = ag ∧ r.department_id = d)) with
  | none =>
    refine ⟨?_, ?_, ⟨[⟨db.length + 1, u, ag, d⟩], ?_⟩⟩ <;> simp [hf]
  | some r =>
    have hp := List.find?_some hf
    have hm := List.mem_of_find?_eq_some hf
    simp only [decide_eq_true_eq] at hp
    refine ⟨?_, ?_, ⟨[], ?_⟩⟩ <;> simp only [hf]
    · exact hp.1
    · exact hm
    · simp

theorem unitDeptGocFold_spec (ag : Nat) :
    ∀ (ps : List (Val × Val)) (db : List UnitRow),
    ((unitDeptGocFold db ag ps).1.map (fun r => r.descr) = ps.map (fun p => p.1)) ∧
    (∃ ext, (unitDeptGocFold db ag ps).2 = db ++ ext) ∧
    (∀ r ∈ (unitDeptGocFold db ag ps).1, r ∈ (unitDeptGocFold db ag ps).2) := by
  intro ps
  induction ps with
  | nil =>
    intro db
    exact ⟨rfl, ⟨[], by simp [unitDeptGocFold]⟩, by simp [unitDeptGocFold]⟩
  | cons p ps ih =>
    intro db
    rcases hg : get_or_create_unit_dept db ag p.1 p.2 with ⟨r, db1⟩
    have hspec := get_or_create_unit_dept_spec db ag p.1 p.2
    rw [hg] at hspec
    dsimp only at hspec
    rcases hspec with ⟨hdescr, hmem, ⟨ext1, hext1⟩⟩
    rcases he : unitDeptGocFold db1 ag ps with ⟨rs, db2⟩
    have ihh := ih db1
    rw [he] at ihh
    dsimp only at ihh
    rcases ihh with ⟨ih1, ⟨ext2, hext2⟩, ih3⟩
    have hunfold : unitDeptGocFold db ag (p :: ps) = (r :: rs, db2) := by
      simp [unitDeptGocFold, hg, he]
    rw [hunfold]
    dsimp only
    refine ⟨?_, ?_, ?_⟩
    · simp only [List.map_cons, ih1, hdescr]
    · exact ⟨ext1 ++ ext2, by rw [hext2, hext1, List.append_assoc]⟩
    · intro r' hr'
      rcases List.mem_cons.mp hr' with rfl | hr'
      · rw [hext2]
        exact List.mem_append_left _ hmem
      · exact ih3 r' hr'

theorem codeGocFold_fresh :
    ∀ (ts : List (Val × Val)) (db : List CodeRow),
    (∀ t ∈ ts, ∀ r ∈ db, r.code ≠ t.1) →
    (ts.map (fun t => t.1)).Nodup →
    ((codeGocFold db ts).2).map (fun r => (r.code, r.descr)) =
      db.map (fun r => (r.code, r.descr)) ++ ts := by
  intro ts
  induction ts with
  | nil =>
    intro db _ _
    simp [codeGocFold]
  | cons t ts ih =>
    intro db hfresh hnd
    have hf : db.find? (fun r => decide (r.code = t.1)) = none := by
      rw [List.find?_eq_none]
      intro r hr
      simp only [decide_eq_true_eq]
      exact hfresh t (List.mem_cons_self _ _) r hr
    have hg : get_or_create_code db t.1 t.2 =
        (⟨db.length + 1, t.1, t.2⟩, db ++ [⟨db.length + 1, t.1, t.2⟩]) := by
      simp [get_or_create_code, hf]
    have hnd2 : (t.1 :: ts.map (fun t => t.1)).Nodup := by
      rw [List.map_cons] at hnd
      exact hnd
    have hnd' := List.nodup_cons.mp hnd2
    have hfresh' : ∀ t' ∈ ts, ∀ r ∈ db ++ [(⟨db.length + 1, t.1, t.2⟩ : CodeRow)],
        r.code ≠ t'.1 := by
      intro t' ht' r hr
      rcases List.mem_append.mp hr with hr | hr
      · exact hfresh t' (List.mem_cons_of_mem _ ht') r hr
      · rw [List.mem_singleton.mp hr]
        intro hcontra
        have hc : t.1 = t'.1 := hcontra
        refine hnd'.1 ?_
        rw [hc]
        exact List.mem_map.mpr ⟨t', ht', rfl⟩
    have ihh := ih (db ++ [⟨db.length + 1, t.1, t.2⟩]) hfresh' hnd'.2
    rcases he : codeGocFold (db ++ [⟨db.length + 1, t.1, t.2⟩]) ts with ⟨rs, db2⟩
    have hunfold : codeGocFold db (t :: ts) =
        (⟨db.length + 1, t.1, t.2⟩ :: rs, db2) := by
      simp [codeGocFold, hg, he]
    rw [hunfold]
    rw [he] at ihh
    simp only [ihh]
    simp

/-- C4 counterexample: when the `Department ID` column exists,
`create_primary_units` passes the distinct `(unit, department)` pairs to
`get_or_create`, not the distinct values of the `Primary Unit` column:
on a dataframe where unit `A` occurs under two departments the passed
descriptions are `[A, A]` — not pairwise distinct, not the distinct
column values, and two `CallUnit` creations are issued for the same unit
name. -/
theorem C4_counterexample :
    ¬ ((unit_departments exdfC4).map (fun p => p.1)).Nodup ∧
    (unit_departments exdfC4).map (fun p => p.1) ≠
      lookup_names exdfC4 "Primary Unit" ∧
    ((create_primary_units exStC4).units.filter
      (fun u => decide (u.descr = vStr "A"))).length = 2 := by
  decide

/-- C4 (amended): for the description-keyed lookup columns (District,
Beat, Priority, City, Department, and Primary Unit when no
`Department ID` column exists) the values passed to `get_or_create` are
`lookup_names`: sorted, pairwise distinct, and exactly the distinct
non-missing values of the column.  For Primary Unit with departments the
values passed are the distinct unit-bearing `(unit, department)` pairs,
sorted — so the same unit name may be passed twice under different
departments. -/
theorem C4_lookup_values (df : DF) (col : String) :
    (lookup_names df col).Sorted (fun a b => valLE a b = true) ∧
    (lookup_names df col).Nodup ∧
    (∀ v : Val, v ∈ lookup_names df col ↔
      (v ∈ df.colVals col ∧ isnan v = false)) ∧
    (unit_departments df).Sorted (fun a b => pairLE a b = true) ∧
    (unit_departments df).Nodup ∧
    (∀ p : Val × Val, p ∈ unit_departments df ↔
      (p ∈ df.rows.map (fun r => (r "Primary Unit", r "Department ID")) ∧
        isnan p.1 = false)) := by
  refine ⟨?_, ?_, ?_, ?_, ?_, ?_⟩
  · exact safe_sorted_sorted _
  · exact safe_sorted_nodup _ (seriesUnique_nodup _)
  · intro v
    rw [lookup_names, mem_safe_sorted, mem_seriesUnique]
    exact Iff.rfl
  · exact safe_sorted_sorted _
  · exact safe_sorted_nodup _ ((seriesUnique_nodup _).filter _)
  · intro p
    rw [unit_departments, mem_safe_sorted, List.mem_filter, mem_seriesUnique]
    constructor
    · rintro ⟨⟨h1, h2⟩, _⟩
      exact ⟨h1, by simpa using h2⟩
    · rintro ⟨h1, h2⟩
      exact ⟨⟨h1, by simpa using h2⟩, rfl⟩

/-! ## The derived ID columns -/

theorem setCol_colVals (df : DF) (name : String) (f : Row → Val) :
    (df.setCol name f).colVals name = df.rows.map f := by
  simp [DF.setCol, DF.colVals]

theorem forall2_map_map {α β : Type} {l : List α} {f g : α → β}
    {P : β → β → Prop} (h : ∀ a ∈ l, P (f a) (g a)) :
    List.Forall₂ P (l.map f) (l.map g) := by
  induction l with
  | nil => exact List.Forall₂.nil
  | cons x xs ih =>
    exact List.Forall₂.cons (h x (List.mem_cons_self _ _))
      (ih fun a ha => h a (List.mem_cons_of_mem _ ha))

theorem gocFold_map_spec (ag : Option Nat) (names : List Val)
    (db : List LookupRow) (hnames : ∀ v ∈ names, isnan v = false) (v : Val) :
    (isnan v = true →
      mapGet (((gocFold db ag names).1).map (fun d => (d.descr, d.id))) v = none) ∧
    (v ∈ names → ∃ lr ∈ (gocFold db ag names).2, lr.descr = v ∧
      mapGet (((gocFold db ag names).1).map (fun d => (d.descr, d.id))) v = some lr.id) := by
  have hkeys : (((gocFold db ag names).1).map (fun d => (d.descr, d.id))).map
      (fun p => p.1) = names := by
    rw [List.map_map]
    exact (gocFold_spec ag names db).1
  constructor
  · intro hv
    apply mapGet_eq_none
    rw [hkeys]
    intro hmem
    rw [hnames v hmem] at hv
    exact Bool.false_ne_true hv
  · intro hvn
    rcases mapGet_isSome (m := ((gocFold db ag names).1).map (fun d => (d.descr, d.id)))
        (x := v) (by rw [hkeys]; exact hvn) with ⟨i, hi⟩
    rcases mapGet_eq_some hi with ⟨p, hp, hpx, hpi⟩
    rcases List.mem_map.mp hp with ⟨d, hd, hdp⟩
    refine ⟨d, (gocFold_spec ag names db).2.2 d hd, ?_, ?_⟩
    · rw [← hpx, ← hdp]
    · rw [hi, ← hpi, ← hdp]

theorem unitDeptGocFold_map_spec (ag : Nat) (ps : List (Val × Val))
    (db : List UnitRow) (hps : ∀ p ∈ ps, isnan p.1 = false) (v : Val) :
    (isnan v = true →
      mapGet (((unitDeptGocFold db ag ps).1).map (fun u => (u.descr, u.id))) v = none) ∧
    (v ∈ ps.map (fun p => p.1) →
      ∃ u ∈ (unitDeptGocFold db ag ps).2, u.descr = v ∧
        mapGet (((unitDeptGocFold db ag ps).1).map (fun u => (u.descr, u.id))) v = some u.id) := by
  have hkeys : (((unitDeptGocFold db ag ps).1).map (fun u => (u.descr, u.id))).map
      (fun p => p.1) = ps.map (fun p => p.1) := by
    rw [List.map_map]
    exact (unitDeptGocFold_spec ag ps db).1
  constructor
  · intro hv
    apply mapGet_eq_none
    rw [hkeys]
    intro hmem
    rcases List.mem_map.mp hmem with ⟨p, hp, hpv⟩
    rw [← hpv, hps p hp] at hv
    exact Bool.false_ne_true hv
  · intro hvn
    rcases mapGet_isSome
        (m := ((unitDeptGocFold db ag ps).1).map (fun u => (u.descr, u.id)))
        (x := v) (by rw [hkeys]; exact hvn) with ⟨i, hi⟩
    rcases mapGet_eq_some hi with ⟨p, hp, hpx, hpi⟩
    rcases List.mem_map.mp hp with ⟨u, hu, hup⟩
    refine ⟨u, (unitDeptGocFold_spec ag ps db).2.2 u hu, ?_, ?_⟩
    · rw [← hpx, ← hup]
    · rw [hi, ← hpi, ← hup]

/-- C5: after a lookup-creation method runs, the derived `<X> ID` column
pairs each row's textual value with the database id of a stored lookup
row whose description equals that value, and is `None` exactly when the
value is missing; this holds for Primary Unit (with departments) even
when the same unit name occurs under more than one department, because
the id map is keyed by the unit description alone. -/
theorem C5_id_columns (st : LoadState) (hdep : "Department ID" ∈ st.df.cols) :
    List.Forall₂ (fun v idv =>
        (isnan v = true → idv = vNone) ∧
        (isnan v = false → ∃ lr ∈ (create_districts st).districts,
          lr.descr = v ∧ idv = vInt lr.id))
      (st.df.colVals "District")
      ((create_districts st).df.colVals "District ID") ∧
    List.Forall₂ (fun v idv =>
        (isnan v = true → idv = vNone) ∧
        (isnan v = false → ∃ u ∈ (create_primary_units st).units,
          u.descr = v ∧ idv = vInt u.id))
      (st.df.colVals "Primary Unit")
      ((create_primary_units st).df.colVals "Primary Unit ID") := by
  constructor
  · have hn : ∀ v ∈ lookup_names st.df "District", isnan v = false := by
      intro v hv
      rw [lookup_names] at hv
      exact ((mem_safe_sorted _ _).mp hv).2
    rcases hg : gocFold st.districts (some st.agency)
        (lookup_names st.df "District") with ⟨ds, db1⟩
    have hst : create_districts st =
        { st with
          trace := st.trace ++ ["Creating districts"],
          districts := db1,
          df := st.df.setCol "District ID" (fun r =>
            optIdToVal (mapGet (ds.map (fun d => (d.descr, d.id))) (r "District"))) } := by
      simp [create_districts, hg]
    rw [hst]
    dsimp only
    rw [setCol_colVals]
    have hcv : st.df.colVals "District" = st.df.rows.map (fun r => r "District") := rfl
    rw [hcv]
    apply forall2_map_map
    intro r0 hr0
    constructor
    · intro hv
      have hnone := (gocFold_map_spec (some st.agency)
          (lookup_names st.df "District") st.districts hn (r0 "District")).1 hv
      rw [hg] at hnone
      dsimp only at hnone
      rw [hnone]
      rfl
    · intro hv
      have hmem : r0 "District" ∈ lookup_names st.df "District" := by
        rw [lookup_names, mem_safe_sorted, mem_seriesUnique]
        exact ⟨List.mem_map.mpr ⟨r0, hr0, rfl⟩, hv⟩
      have hspec := (gocFold_map_spec (some st.agency)
          (lookup_names st.df "District") st.districts hn (r0 "District")).2 hmem
      rw [hg] at hspec
      dsimp only at hspec
      rcases hspec with ⟨lr, hlr, hd, hsome⟩
      refine ⟨lr, hlr, hd, ?_⟩
      rw [hsome]
      rfl
  · have hps : ∀ p ∈ unit_departments st.df, isnan p.1 = false := by
      intro p hp
      rw [unit_departments, mem_safe_sorted, List.mem_filter] at hp
      simpa using hp.1.2
    rcases hg : unitDeptGocFold st.units st.agency (unit_departments st.df)
      with ⟨us, db1⟩
    have hst : create_primary_units st =
        { st with
          trace := st.trace ++ ["Creating primary units"],
          units := db1,
          df := st.df.setCol "Primary Unit ID" (fun r =>
            optIdToVal (mapGet (us.map (fun u => (u.descr, u.id))) (r "Primary Unit"))) } := by
      unfold create_primary_units
      rw [if_pos hdep]
      simp [hg]
    rw [hst]
    dsimp only
    rw [setCol_colVals]
    have hcv : st.df.colVals "Primary Unit" =
        st.df.rows.map (fun r => r "Primary Unit") := rfl
    rw [hcv]
    apply forall2_map_map
    intro r0 hr0
    constructor
    · intro hv
      have hnone := (unitDeptGocFold_map_spec st.agency (unit_departments st.df)
          st.units hps (r0 "Primary Unit")).1 hv
      rw [hg] at hnone
      dsimp only at hnone
      rw [hnone]
      rfl
    · intro hv
      have hpair : (r0 "Primary Unit", r0 "Department ID") ∈ unit_departments st.df := by
        rw [unit_departments, mem_safe_sorted, List.mem_filter, mem_seriesUnique]
        refine ⟨⟨List.mem_map.mpr ⟨r0, hr0, rfl⟩, ?_⟩, rfl⟩
        simp [hv]
      have hmem : r0 "Primary Unit" ∈ (unit_departments st.df).map (fun p => p.1) :=
        List.mem_map.mpr ⟨_, hpair, rfl⟩
      have hspec := (unitDeptGocFold_map_spec st.agency (unit_departments st.df)
          st.units hps (r0 "Primary Unit")).2 hmem
      rw [hg] at hspec
      dsimp only at hspec
      rcases hspec with ⟨u, hu, hd, hsome⟩
      refine ⟨u, hu, hd, ?_⟩
      rw [hsome]
      rfl

/-- C5 witness: the theorem at the concrete state `exSt5`, whose
dataframe has a present and a missing district, and unit `A` under two
departments. -/
theorem C5_id_columns_witness :
    List.Forall₂ (fun v idv =>
        (isnan v = true → idv = vNone) ∧
        (isnan v = false → ∃ lr ∈ (create_districts exSt5).districts,
          lr.descr = v ∧ idv = vInt lr.id))
      (exSt5.df.colVals "District")
      ((create_districts exSt5).df.colVals "District ID") ∧
    List.Forall₂ (fun v idv =>
        (isnan v = true → idv = vNone) ∧
        (isnan v = false → ∃ u ∈ (create_primary_units exSt5).units,
          u.descr = v ∧ idv = vInt u.id))
      (exSt5.df.colVals "Primary Unit")
      ((create_primary_units exSt5).df.colVals "Primary Unit ID") :=
  C5_id_columns exSt5 (by decide)

/-! ## Code tuples (`groupby ... min`) -/

theorem map_fst_filter_pairs (keys : List Val) (g : Val → Val) :
    (((keys.map (fun k => (k, g k))).filter (fun p => truthy p.1)).map
      (fun p => p.1)) = keys.filter truthy := by
  induction keys with
  | nil => rfl
  | cons k ks ih =>
    by_cases h : truthy k = true <;>
      simp [List.filter_cons, h, ih]

/-- C6: for each code/text pair, the derived reference tuples are one per
distinct truthy non-missing code (grouping on the code column), the
second component is the minimum text over the rows sharing that code
(`NaN` when the group has no non-missing text), the creation methods
feed exactly these tuples to `get_or_create` as `(code, default descr)`,
and loading into an empty table creates exactly one row per tuple with
the minimum text as its description. -/
theorem C6_code_tuples (df : DF) (kcol vcol : String) (st : LoadState) :
    ((code_tuples df kcol vcol).map (fun p => p.1)).Nodup ∧
    (∀ k : Val, k ∈ (code_tuples df kcol vcol).map (fun p => p.1) ↔
      (k ∈ df.colVals kcol ∧ isnan k = false ∧ truthy k = true)) ∧
    (∀ p ∈ code_tuples df kcol vcol,
      (∀ t ∈ groupTexts df kcol vcol p.1, valLE p.2 t = true) ∧
      (p.2 ∈ groupTexts df kcol vcol p.1 ∨
        (groupTexts df kcol vcol p.1 = [] ∧ p.2 = vNaN))) ∧
    (create_sources st).sources =
      (codeGocFold st.sources (code_tuples st.df "Source Code" "Source Text")).2 ∧
    (create_natures st).natures =
      (codeGocFold st.natures (code_tuples st.df "Nature Code" "Nature Text")).2 ∧
    (create_close_codes st).closeCodes =
      (codeGocFold st.closeCodes (code_tuples st.df "Close Code" "Close Text")).2 ∧
    ((codeGocFold [] (code_tuples df kcol vcol)).2).map
      (fun r => (r.code, r.descr)) = code_tuples df kcol vcol := by
  have hgm : groupby_min df kcol vcol =
      (safe_sorted (seriesUnique ((df.colVals kcol).filter (fun v => !isnan v)))).map
        (fun k => (k, groupMinVal df kcol vcol k)) := rfl
  have hfst : (code_tuples df kcol vcol).map (fun p => p.1) =
      (safe_sorted (seriesUnique ((df.colVals kcol).filter
        (fun v => !isnan v)))).filter truthy := by
    rw [code_tuples, hgm, map_fst_filter_pairs]
  have hkeys_nodup :
      (safe_sorted (seriesUnique ((df.colVals kcol).filter
        (fun v => !isnan v)))).Nodup :=
    safe_sorted_nodup _ (seriesUnique_nodup _)
  have hmem_keys : ∀ k : Val,
      k ∈ safe_sorted (seriesUnique ((df.colVals kcol).filter (fun v => !isnan v))) ↔
        (k ∈ df.colVals kcol ∧ isnan k = false) := by
    intro k
    rw [mem_safe_sorted, mem_seriesUnique, List.mem_filter]
    constructor
    · rintro ⟨⟨h1, h2⟩, _⟩
      exact ⟨h1, by simpa using h2⟩
    · rintro ⟨h1, h2⟩
      exact ⟨⟨h1, by simpa using h2⟩, h2⟩
  have hnodup : ((code_tuples df kcol vcol).map (fun p => p.1)).Nodup := by
    rw [hfst]
    exact hkeys_nodup.filter _
  refine ⟨hnodup, ?_, ?_, rfl, rfl, rfl, ?_⟩
  · intro k
    rw [hfst, List.mem_filter, hmem_keys]
    tauto
  · intro p hp
    have hp1 : p ∈ groupby_min df kcol vcol := List.mem_of_mem_filter hp
    rw [hgm] at hp1
    rcases List.mem_map.mp hp1 with ⟨k, _, hkp⟩
    rcases hkp with rfl
    dsimp only
    unfold groupMinVal
    cases hgt : groupTexts df kcol vcol k with
    | nil =>
      exact ⟨fun t ht => absurd ht (List.not_mem_nil t), Or.inr ⟨rfl, rfl⟩⟩
    | cons w ws =>
      rcases foldMin_spec ws w with ⟨hmem, hle⟩
      exact ⟨fun t ht => hle t ht, Or.inl hmem⟩
  · have hfresh : ∀ t ∈ code_tuples df kcol vcol, ∀ r ∈ ([] : List CodeRow),
        r.code ≠ t.1 := by
      intro t ht r hr
      exact absurd hr (List.not_mem_nil r)
    have h := codeGocFold_fresh (code_tuples df kcol vcol) [] hfresh hnodup
    simpa using h

/-! ## The creation-method loop of `handle` -/

theorem setCol_mem_cols (df : DF) (name : String) (f : Row → Val) (c : String) :
    c ∈ (df.setCol name f).cols ↔ (c ∈ df.cols ∨ c = name) := by
  unfold DF.setCol
  by_cases h : name ∈ df.cols
  · rw [if_pos h]
    constructor
    · exact Or.inl
    · rintro (hc | rfl)
      · exact hc
      · exact h
  · rw [if_neg h]
    simp [List.mem_append]

theorem create_districts_shape (s : LoadState) :
    (create_districts s).trace = s.trace ++ ["Creating districts"] ∧
    ∀ c : String, c ∈ (create_districts s).df.cols ↔
      (c ∈ s.df.cols ∨ c = "District ID") := by
  rcases hg : gocFold s.districts (some s.agency) (lookup_names s.df "District")
    with ⟨rs, db⟩
  refine ⟨?_, fun c => ?_⟩ <;> simp [create_districts, hg, setCol_mem_cols]

theorem create_beats_shape (s : LoadState) :
    (create_beats s).trace = s.trace ++ ["Creating beats"] ∧
    ∀ c : String, c ∈ (create_beats s).df.cols ↔
      (c ∈ s.df.cols ∨ c = "Beat ID") := by
  rcases hg : gocFold s.beats none (lookup_names s.df "Beat") with ⟨rs, db⟩
  refine ⟨?_, fun c => ?_⟩ <;> simp [create_beats, hg, setCol_mem_cols]

theorem create_priorities_shape (s : LoadState) :
    (create_priorities s).trace = s.trace ++ ["Creating priorities"] ∧
    ∀ c : String, c ∈ (create_priorities s).df.cols ↔
      (c ∈ s.df.cols ∨ c = "Priority ID") := by
  rcases hg : gocFold s.priorities none (lookup_names s.df "Priority") with ⟨rs, db⟩
  refine ⟨?_, fun c => ?_⟩ <;> simp [create_priorities, hg, setCol_mem_cols]

theorem create_cities_shape (s : LoadState) :
    (create_cities s).trace = s.trace ++ ["Creating cities"] ∧
    ∀ c : String, c ∈ (create_cities s).df.cols ↔
      (c ∈ s.df.cols ∨ c = "City ID") := by
  rcases hg : gocFold s.cities none (lookup_names s.df "City") with ⟨rs, db⟩
  refine ⟨?_, fun c => ?_⟩ <;> simp [create_cities, hg, setCol_mem_cols]

theorem create_departments_shape (s : LoadState) :
    (create_departments s).trace = s.trace ++ ["Creating departments"] ∧
    ∀ c : String, c ∈ (create_departments s).df.cols ↔
      (c ∈ s.df.cols ∨ c = "Department ID") := by
  rcases hg : gocFold s.departments none (lookup_names s.df "Department")
    with ⟨rs, db⟩
  refine ⟨?_, fun c => ?_⟩ <;> simp [create_departments, hg, setCol_mem_cols]

theorem create_sources_shape (s : LoadState) :
    (create_sources s).trace = s.trace ++ ["Creating sources"] ∧
    ∀ c : String, c ∈ (create_sources s).df.cols ↔
      (c ∈ s.df.cols ∨ c = "Source ID") := by
  rcases hg : codeGocFold s.sources (code_tuples s.df "Source Code" "Source Text")
    with ⟨rs, db⟩
  refine ⟨?_, fun c => ?_⟩ <;> simp [create_sources, hg, setCol_mem_cols]

theorem create_natures_shape (s : LoadState) :
    (create_natures s).trace = s.trace ++ ["Creating natures"] ∧
    ∀ c : String, c ∈ (create_natures s).df.cols ↔
      (c ∈ s.df.cols ∨ c = "Nature ID") := by
  rcases hg : codeGocFold s.natures (code_tuples s.df "Nature Code" "Nature Text")
    with ⟨rs, db⟩
  refine ⟨?_, fun c => ?_⟩ <;> simp [create_natures, hg, setCol_mem_cols]

theorem create_close_codes_shape (s : LoadState) :
    (create_close_codes s).trace = s.trace ++ ["Creating close codes"] ∧
    ∀ c : String, c ∈ (create_close_codes s).df.cols ↔
      (c ∈ s.df.cols ∨ c = "Close Code ID") := by
  rcases hg : codeGocFold s.closeCodes (code_tuples s.df "Close Code" "Close Text")
    with ⟨rs, db⟩
  refine ⟨?_, fun c => ?_⟩ <;> simp [create_close_codes, hg, setCol_mem_cols]

theorem create_primary_units_shape (s : LoadState) :
    (create_primary_units s).trace = s.trace ++ ["Creating primary units"] ∧
    ∀ c : String, c ∈ (create_primary_units s).df.cols ↔
      (c ∈ s.df.cols ∨ c = "Primary Unit ID") := by
  by_cases hdep : "Department ID" ∈ s.df.cols
  · rcases hg : unitDeptGocFold s.units s.agency (unit_departments s.df)
      with ⟨rs, db⟩
    unfold create_primary_units
    rw [if_pos hdep]
    refine ⟨?_, fun c => ?_⟩ <;> simp [hg, setCol_mem_cols]
  · rcases hg : unitGocFold s.units s.agency (lookup_names s.df "Primary Unit")
      with ⟨rs, db⟩
    unfold create_primary_units
    rw [if_neg hdep]
    refine ⟨?_, fun c => ?_⟩ <;> simp [hg, setCol_mem_cols]

theorem method_facts : ∀ e ∈ creation_table,
    (∀ s : LoadState, (e.1.2 s).trace = s.trace ++ [e.2]) ∧
    (∀ (s : LoadState) (g : String), g ∈ creation_guards →
      (g ∈ (e.1.2 s).df.cols ↔ g ∈ s.df.cols)) := by
  have step : ∀ (m : LoadState → LoadState) (idcol : String),
      (∀ (s : LoadState) (c : String),
        c ∈ (m s).df.cols ↔ (c ∈ s.df.cols ∨ c = idcol)) →
      idcol ∉ creation_guards →
      ∀ (s : LoadState) (g : String), g ∈ creation_guards →
        (g ∈ (m s).df.cols ↔ g ∈ s.df.cols) := by
    intro m idcol hm hid s g hgmem
    rw [hm s g]
    constructor
    · rintro (h | rfl)
      · exact h
      · exact absurd hgmem hid
    · exact Or.inl
  intro e he
  simp only [creation_table, List.mem_cons, List.not_mem_nil, or_false] at he
  rcases he with rfl | rfl | rfl | rfl | rfl | rfl | rfl | rfl | rfl
  · exact ⟨fun s => (create_districts_shape s).1,
      step _ _ (fun s => (create_districts_shape s).2) (by decide)⟩
  · exact ⟨fun s => (create_beats_shape s).1,
      step _ _ (fun s => (create_beats_shape s).2) (by decide)⟩
  · exact ⟨fun s => (create_priorities_shape s).1,
      step _ _ (fun s => (create_priorities_shape s).2) (by decide)⟩
  · exact ⟨fun s => (create_natures_shape s).1,
      step _ _ (fun s => (create_natures_shape s).2) (by decide)⟩
  · exact ⟨fun s => (create_close_codes_shape s).1,
      step _ _ (fun s => (create_close_codes_shape s).2) (by decide)⟩
  · exact ⟨fun s => (create_sources_shape s).1,
      step _ _ (fun s => (create_sources_shape s).2) (by decide)⟩
  · exact ⟨fun s => (create_cities_shape s).1,
      step _ _ (fun s => (create_cities_shape s).2) (by decide)⟩
  · exact ⟨fun s => (create_departments_shape s).1,
      step _ _ (fun s => (create_departments_shape s).2) (by decide)⟩
  · exact ⟨fun s => (create_primary_units_shape s).1,
      step _ _ (fun s => (create_primary_units_shape s).2) (by decide)⟩

theorem guard_facts : ∀ e ∈ creation_table, e.1.1 ∈ creation_guards := by
  intro e he
  simp only [creation_table, List.mem_cons, List.not_mem_nil, or_false] at he
  rcases he with rfl | rfl | rfl | rfl | rfl | rfl | rfl | rfl | rfl <;> decide

theorem run_aux (guards : List String) :
    ∀ (tbl : List ((String × (LoadState → LoadState)) × String)),
    (∀ e ∈ tbl, (∀ s : LoadState, (e.1.2 s).trace = s.trace ++ [e.2]) ∧
      (∀ (s : LoadState) (g : String), g ∈ guards →
        (g ∈ (e.1.2 s).df.cols ↔ g ∈ s.df.cols))) →
    (∀ e ∈ tbl, e.1.1 ∈ guards) →
    ∀ st : LoadState,
      ((tbl.map (fun e => e.1)).foldl
        (fun s cm => if cm.1 ∈ s.df.cols then cm.2 s else s) st).trace =
        st.trace ++ ((tbl.filter (fun e => decide (e.1.1 ∈ st.df.cols))).map
          (fun e => e.2)) ∧
      (∀ g ∈ guards,
        (g ∈ ((tbl.map (fun e => e.1)).foldl
          (fun s cm => if cm.1 ∈ s.df.cols then cm.2 s else s) st).df.cols ↔
          g ∈ st.df.cols)) := by
  intro tbl
  induction tbl with
  | nil =>
    intro _ _ st
    exact ⟨by simp, fun g _ => Iff.rfl⟩
  | cons e ts ih =>
    intro h hg st
    have he := h e (List.mem_cons_self _ _)
    have hts := fun e' he' => h e' (List.mem_cons_of_mem _ he')
    have hgts := fun e' he' => hg e' (List.mem_cons_of_mem _ he')
    have ihs := ih hts hgts
    simp only [List.map_cons, List.foldl_cons, List.filter_cons]
    by_cases hc : e.1.1 ∈ st.df.cols
    · rw [if_pos hc]
      rw [decide_eq_true hc]
      rcases ihs (e.1.2 st) with ⟨iht, ihc⟩
      constructor
      · rw [iht, he.1 st]
        have hfc : ts.filter (fun e' => decide (e'.1.1 ∈ (e.1.2 st).df.cols)) =
            ts.filter (fun e' => decide (e'.1.1 ∈ st.df.cols)) := by
          apply List.filter_congr
          intro e' he'
          have hiff := (he.2 st e'.1.1 (hgts e' he'))
          exact decide_eq_decide.mpr hiff
        rw [hfc]
        simp [List.append_assoc]
      · intro g hgmem
        rw [ihc g hgmem]
        exact he.2 st g hgmem
    · rw [if_neg hc]
      rw [decide_eq_false hc]
      simp only [Bool.false_eq_true, if_false]
      exact ihs st

/-- C7: the creation methods run exactly when their guard column is
present, in the fixed source order (the trace of `self.log` lines equals
the guard-filtered log table, in order), and `handle` invokes
`create_calls` only after the whole creation loop. -/
theorem C7_creation_methods (st : LoadState) :
    (run_creation_methods st).trace =
      st.trace ++ ((creation_log_table.filter
        (fun p => decide (p.1 ∈ st.df.cols))).map (fun p => p.2)) ∧
    (∀ (upd : Bool) (stored : List Call),
      handle_load upd stored st =
        create_calls upd (run_creation_methods st).agency
          (run_creation_methods st).df.cols (run_creation_methods st).df.rows
          ⟨stored, [], []⟩) := by
  have hmap : creation_table.map (fun e => e.1) = creation_methods := rfl
  have h := run_aux creation_guards creation_table method_facts guard_facts st
  constructor
  · have h1 := h.1
    rw [hmap] at h1
    rw [run_creation_methods, h1]
    refine congrArg (fun l => st.trace ++ l) ?_
    have hlog : creation_log_table =
        creation_table.map (fun e => (e.1.1, e.2)) := rfl
    rw [hlog]
    generalize creation_table = ts
    induction ts with
    | nil => rfl
    | cons e ts ih =>
      by_cases hc : e.1.1 ∈ st.df.cols <;>
        simp [List.filter_cons, hc, ih]
  · intro upd stored
    unfold handle_load
    rfl

/-! ## Bulk create with retry, row skipping, update frame -/

theorem except_bind_ok {ε α β : Type} {x : Except ε α} {f : α → Except ε β}
    {b : β} (h : x >>= f = .ok b) : ∃ a, x = .ok a ∧ f a = .ok b := by
  cases x with
  | error e => exact Except.noConfusion h
  | ok a => exact ⟨a, rfl, h⟩

/-- C2: the batch `try` block issues one `bulk_create`; if it raises
`IntegrityError` the pending list is reduced to the first occurrence per
`call_id` by `uniq_list_by_key` and `bulk_create` is attempted exactly
one more time (both attempts are logged), whose outcome — success or any
exception — is final; an exception other than `IntegrityError` from the
first attempt propagates uncaught. -/
theorem C2_bulk_retry (db : CallDB) (calls : List Call) :
    (∀ stored, bulk_create_raw db.calls calls = .ok stored →
      bulk_with_retry db calls =
        .ok { db with calls := stored, bulkLog := db.bulkLog ++ [calls] }) ∧
    (bulk_create_raw db.calls calls = .error .integrityError →
      bulk_with_retry db calls =
        (match bulk_create_raw db.calls
            (uniq_list_by_key calls (fun call => call.call_id)) with
         | .ok stored =>
             .ok { db with calls := stored, bulkLog := db.bulkLog ++ [calls, uniq_list_by_key calls (fun call => call.call_id)] }
         | .error e2 => .error e2)) ∧
    (∀ e, bulk_create_raw db.calls calls = .error e → e ≠ .integrityError →
      bulk_with_retry db calls = .error e) := by
  refine ⟨?_, ?_, ?_⟩
  · intro stored h
    unfold bulk_with_retry
    rw [h]
  · intro h
    unfold bulk_with_retry
    rw [h]
  · intro e h hne
    unfold bulk_with_retry
    rw [h]
    cases e with
    | integrityError => exact absurd rfl hne
    | typeError => rfl
    | valueError => rfl
    | attributeError => rfl

/-- C3: a CSV row whose `Internal ID` matches a stored call never
constructs or inserts a new `Call`: without the update option the
accumulator is returned unchanged, and with it the matching stored call
is overwritten with the row's converted keyword arguments (and saved),
the pending list still untouched. -/
theorem C3_skip_existing (ag : Nat) (cols : List String)
    (stored calls : List Call) (c : Row)
    (hex : stored.any (fun s => decide (s.call_id = c "Internal ID")) = true) :
    processRow false ag cols (stored, calls) c = .ok (stored, calls) ∧
    (∀ k, rowKwargs ag cols c = .ok k →
      processRow true ag cols (stored, calls) c =
        .ok (stored.map (fun s =>
          if s.call_id = c "Internal ID" then update_call s k else s), calls)) := by
  constructor
  · unfold processRow
    simp only [hex, if_true, Bool.true_eq, if_false, Bool.false_eq_true]
    rfl
  · intro k hk
    unfold processRow
    simp only [hex, hk, if_true, Bool.true_eq, if_false, Bool.false_eq_true]
    rfl

/-- C10: `update_call` with the kwargs `create_calls` passes modifies
exactly the passed fields plus the derived state: `department_id`,
`primary_unit_id` and `call_id` are never changed by an update, even
though a newly built call sets department and primary unit from the
CSV row. -/
theorem C10_update_frame (s : Call) (k : UpdateKwargs) (ag : Nat)
    (cols : List String) (c : Row) (call : Call)
    (h : buildCall ag cols c = .ok call) :
    (update_call s k).department_id = s.department_id ∧
    (update_call s k).primary_unit_id = s.primary_unit_id ∧
    (update_call s k).call_id = s.call_id ∧
    (update_call s k).agency = k.agency ∧
    (update_call s k).time_received = k.time_received ∧
    (update_call s k).first_unit_dispatch = k.first_unit_dispatch ∧
    (update_call s k).first_unit_arrive = k.first_unit_arrive ∧
    (update_call s k).time_closed = k.time_closed ∧
    (update_call s k).street_address = k.street_address ∧
    (update_call s k).zip_code = k.zip_code ∧
    (update_call s k).nature_id = k.nature_id ∧
    (update_call s k).city_id = k.city_id ∧
    (update_call s k).priority_id = k.priority_id ∧
    (update_call s k).district_id = k.district_id ∧
    (update_call s k).beat_id = k.beat_id ∧
    (update_call s k).call_source_id = k.call_source_id ∧
    (update_call s k).close_code_id = k.close_code_id ∧
    (update_call s k).geox = k.geox ∧
    (update_call s k).geoy = k.geoy ∧
    (update_call s k).derived = s.derived + 1 ∧
    safe_int (safe_get cols c "Department ID") = .ok call.department_id ∧
    safe_int (safe_get cols c "Primary Unit ID") = .ok call.primary_unit_id := by
  have hinv : safe_int (safe_get cols c "Department ID") = .ok call.department_id ∧
      safe_int (safe_get cols c "Primary Unit ID") = .ok call.primary_unit_id := by
    unfold buildCall at h
    rcases except_bind_ok h with ⟨kk, hk, h1⟩
    rcases except_bind_ok h1 with ⟨dept, hdept, h2⟩
    rcases except_bind_ok h2 with ⟨pu, hpu, h3⟩
    have hcall : call = update_derived_fields
        { call_id := c "Internal ID",
          agency := kk.agency,
          time_received := kk.time_received,
          first_unit_dispatch := kk.first_unit_dispatch,
          first_unit_arrive := kk.first_unit_arrive,
          time_closed := kk.time_closed,
          street_address := kk.street_address,
          zip_code := kk.zip_code,
          nature_id := kk.nature_id,
          city_id := kk.city_id,
          priority_id := kk.priority_id,
          district_id := kk.district_id,
          beat_id := kk.beat_id,
          call_source_id := kk.call_source_id,
          close_code_id := kk.close_code_id,
          department_id := dept,
          primary_unit_id := pu,
          geox := kk.geox,
          geoy := kk.geoy,
          derived := 0 } := by
      have h4 := h3.symm
      exact Except.ok.inj h4
    constructor
    · rw [hdept, hcall]
      rfl
    · rw [hpu, hcall]
      rfl
  refine ⟨rfl, rfl, rfl, rfl, rfl, rfl, rfl, rfl, rfl, rfl, rfl, rfl, rfl,
    rfl, rfl, rfl, rfl, rfl, rfl, rfl, hinv.1, hinv.2⟩

/-! ## Batch partitioning -/

theorem chunksBS_cons {α : Type} (x : α) (xs : List α) :
    chunksBS (x :: xs) =
      ((x :: xs).take batch_size) :: chunksBS ((x :: xs).drop batch_size) := by
  rw [chunksBS]

theorem chunksBS_eq_nil_iff {α : Type} (l : List α) :
    chunksBS l = [] ↔ l = [] := by
  cases l with
  | nil => simp [chunksBS]
  | cons x xs =>
    rw [chunksBS_cons]
    simp

theorem chunksBS_join {α : Type} (l : List α) : (chunksBS l).flatten = l := by
  generalize hn : l.length = n
  induction n using Nat.strong_induction_on generalizing l with
  | _ n ih =>
    cases l with
    | nil => simp [chunksBS]
    | cons x xs =>
      rw [chunksBS_cons, List.flatten_cons]
      rw [ih ((x :: xs).drop batch_size).length
        (by simp only [List.length_drop, List.length_cons, batch_size] at *; omega)
        _ rfl]
      exact List.take_append_drop _ _

theorem chunksBS_sizes {α : Type} (l : List α) :
    ∀ b ∈ chunksBS l, b ≠ [] ∧ b.length ≤ batch_size := by
  generalize hn : l.length = n
  induction n using Nat.strong_induction_on generalizing l with
  | _ n ih =>
    cases l with
    | nil => simp [chunksBS]
    | cons x xs =>
      rw [chunksBS_cons]
      intro b hb
      rcases List.mem_cons.mp hb with rfl | hb1
      · constructor
        · apply List.ne_nil_of_length_pos
          rw [List.length_take]
          simp only [batch_size, List.length_cons]
          omega
        · rw [List.length_take]
          exact min_le_left _ _
      · exact ih ((x :: xs).drop batch_size).length
          (by simp only [List.length_drop, List.length_cons, batch_size] at *; omega)
          _ rfl b hb1

theorem chunksBS_dropLast_sizes {α : Type} (l : List α) :
    ∀ b ∈ (chunksBS l).dropLast, b.length = batch_size := by
  generalize hn : l.length = n
  induction n using Nat.strong_induction_on generalizing l with
  | _ n ih =>
    cases l with
    | nil => simp [chunksBS]
    | cons x xs =>
      rw [chunksBS_cons]
      intro b hb
      cases hrest : chunksBS ((x :: xs).drop batch_size) with
      | nil =>
        rw [hrest] at hb
        simp at hb
      | cons c cs =>
        rw [hrest] at hb
        rw [List.dropLast_cons_of_ne_nil (by simp)] at hb
        rcases List.mem_cons.mp hb with rfl | hb1
        · have hne : (x :: xs).drop batch_size ≠ [] :=
            (chunksBS_eq_nil_iff _).not.mp (by rw [hrest]; simp)
          have hlen : batch_size < (x :: xs).length := by
            by_contra hcon
            exact hne (List.drop_eq_nil_of_le (by omega))
          rw [List.length_take]
          omega
        · have := ih ((x :: xs).drop batch_size).length
            (by simp only [List.length_drop, List.length_cons, batch_size] at *; omega)
            _ rfl b
          rw [hrest] at this
          exact this hb1

theorem runBatch_logs (upd : Bool) (ag : Nat) (cols : List String)
    (db : CallDB) (batch : List Row) (db1 : CallDB)
    (h : runBatch upd ag cols db batch = .ok db1) :
    db1.batchLog = db.batchLog ++ [batch] ∧
    (db1.bulkLog.length = db.bulkLog.length + 1 ∨
     db1.bulkLog.length = db.bulkLog.length + 2) := by
  unfold runBatch at h
  rcases except_bind_ok h with ⟨acc, hacc, h1⟩
  unfold bulk_with_retry at h1
  dsimp only at h1
  cases hbc : bulk_create_raw acc.1 acc.2 with
  | ok stored =>
    rw [hbc] at h1
    have hdb1 := (Except.ok.inj h1).symm
    rw [hdb1]
    exact ⟨rfl, Or.inl (by simp)⟩
  | error e =>
    rw [hbc] at h1
    cases e with
    | integrityError =>
      cases hbc2 : bulk_create_raw acc.1
          (uniq_list_by_key acc.2 (fun call => call.call_id)) with
      | ok stored2 =>
        rw [hbc2] at h1
        have hdb1 := (Except.ok.inj h1).symm
        rw [hdb1]
        exact ⟨rfl, Or.inr (by simp)⟩
      | error e2 =>
        rw [hbc2] at h1
        exact Except.noConfusion h1
    | typeError => exact Except.noConfusion h1
    | valueError => exact Except.noConfusion h1
    | attributeError => exact Except.noConfusion h1

theorem create_calls_loop_spec (upd : Bool) (ag : Nat) (cols : List String)
    (rows : List Row) :
    ∀ (n start : Nat) (db : CallDB), rows.length - start ≤ n →
    (match create_calls_loop upd ag cols rows start db with
     | .ok db1 =>
         db1.batchLog = db.batchLog ++ chunksBS (rows.drop start) ∧
         db.bulkLog.length + (chunksBS (rows.drop start)).length ≤
           db1.bulkLog.length ∧
         db1.bulkLog.length ≤
           db.bulkLog.length + 2 * (chunksBS (rows.drop start)).length
     | .error _ => True) := by
  intro n
  induction n with
  | zero =>
    intro start db hle
    have hns : ¬ start < rows.length := by omega
    rw [create_calls_loop]
    rw [dif_neg hns]
    have hdrop : rows.drop start = [] := List.drop_eq_nil_of_le (by omega)
    simp [hdrop, chunksBS]
  | succ n ih =>
    intro start db hle
    rw [create_calls_loop]
    by_cases hlt : start < rows.length
    · rw [dif_pos hlt]
      cases hrb : runBatch upd ag cols db ((rows.drop start).take batch_size) with
      | error e => simp
      | ok db1 =>
        dsimp only
        have hrec := ih (start + batch_size) db1
          (by simp only [batch_size] at *; omega)
        rcases runBatch_logs upd ag cols db ((rows.drop start).take batch_size)
          db1 hrb with ⟨hbatch, hbulk⟩
        have hne : rows.drop start ≠ [] := by
          apply List.ne_nil_of_length_pos
          rw [List.length_drop]
          omega
        have hdd : (rows.drop start).drop batch_size = rows.drop (start + batch_size) := by
          rw [List.drop_drop]
        have hch : chunksBS (rows.drop start) =
            ((rows.drop start).take batch_size) ::
              chunksBS (rows.drop (start + batch_size)) := by
          cases hd : rows.drop start with
          | nil => exact absurd hd hne
          | cons x xs =>
            rw [chunksBS_cons, ← hd, hdd]
        cases hloop : create_calls_loop upd ag cols rows (start + batch_size) db1 with
        | error e => simp
        | ok db2 =>
          rw [hloop] at hrec
          rcases hrec with ⟨h1, h2, h3⟩
          refine ⟨?_, ?_, ?_⟩
          · rw [h1, hbatch, hch]
            simp
          · rw [hch]
            simp only [List.length_cons]
            rcases hbulk with hb | hb <;> omega
          · rw [hch]
            simp only [List.length_cons]
            rcases hbulk with hb | hb <;> omega
    · rw [dif_neg hlt]
      have hdrop : rows.drop start = [] := List.drop_eq_nil_of_le (by omega)
      simp [hdrop, chunksBS]

/-- C1: `create_calls` slices the dataframe rows into consecutive
`batch_size = 2000` batches (`chunksBS`): their concatenation is exactly
the row list (every row in exactly one batch), every batch but the last
has exactly 2000 rows and the last is nonempty with at most 2000; on a
completed run the processed batches are exactly these slices and every
batch ends in a `bulk_create` (between one and two logged attempts per
batch); the loop terminates because both the success and the retry
branch advance `start` by the positive `batch_size`, which is the
decreasing-measure argument `create_calls_loop` is defined by. -/
theorem C1_create_calls_batches (upd : Bool) (ag : Nat) (cols : List String)
    (rows : List Row) (stored : List Call) :
    batch_size = 2000 ∧
    (chunksBS rows).flatten = rows ∧
    (∀ b ∈ chunksBS rows, b ≠ [] ∧ b.length ≤ batch_size) ∧
    (∀ b ∈ (chunksBS rows).dropLast, b.length = batch_size) ∧
    (match create_calls upd ag cols rows ⟨stored, [], []⟩ with
     | .ok db => db.batchLog = chunksBS rows ∧
         (chunksBS rows).length ≤ db.bulkLog.length ∧
         db.bulkLog.length ≤ 2 * (chunksBS rows).length
     | .error _ => True) := by
  refine ⟨rfl, chunksBS_join rows, chunksBS_sizes rows, chunksBS_dropLast_sizes rows, ?_⟩
  have h := create_calls_loop_spec upd ag cols rows rows.length 0
    ⟨stored, [], []⟩ (by omega)
  rw [List.drop_zero] at h
  unfold create_calls
  cases hloop : create_calls_loop upd ag cols rows 0 ⟨stored, [], []⟩ with
  | error e => simp
  | ok db =>
    rw [hloop] at h
    rcases h with ⟨h1, h2, h3⟩
    exact ⟨by simpa using h1, by simpa using h2, by simpa using h3⟩

/-- C1 witness: the batching theorem at a concrete two-row dataframe and
an empty table. -/
theorem C1_create_calls_batches_witness :
    batch_size = 2000 ∧
    (chunksBS exRows1).flatten = exRows1 ∧
    (∀ b ∈ chunksBS exRows1, b ≠ [] ∧ b.length ≤ batch_size) ∧
    (∀ b ∈ (chunksBS exRows1).dropLast, b.length = batch_size) ∧
    (match create_calls false 1 [] exRows1 ⟨[], [], []⟩ with
     | .ok db => db.batchLog = chunksBS exRows1 ∧
         (chunksBS exRows1).length ≤ db.bulkLog.length ∧
         db.bulkLog.length ≤ 2 * (chunksBS exRows1).length
     | .error _ => True) :=
  C1_create_calls_batches false 1 [] exRows1 []

/-- C2 witness: a clean bulk create logs one attempt; a batch that
duplicates a stored call still fails after the deduplicating retry and
the retry's exception propagates. -/
theorem C2_bulk_retry_witness :
    bulk_with_retry exDb2 [exCallA] =
      .ok { exDb2 with calls := [exCallA], bulkLog := exDb2.bulkLog ++ [[exCallA]] } ∧
    bulk_with_retry exDb2b [exCallA, exCallA] = .error .integrityError := by
  refine ⟨(C2_bulk_retry exDb2 [exCallA]).1 [exCallA] (by rfl), ?_⟩
  have h := (C2_bulk_retry exDb2b [exCallA, exCallA]).2.1 (by rfl)
  rw [h]
  rfl

/-- C3 witness: the skipping theorem at a stored call matching the row's
`Internal ID`. -/
theorem C3_skip_existing_witness :
    processRow false 1 [] ([exCallA], []) (exRowID (vStr "1")) =
      .ok ([exCallA], []) ∧
    (∀ k, rowKwargs 1 [] (exRowID (vStr "1")) = .ok k →
      processRow true 1 [] ([exCallA], []) (exRowID (vStr "1")) =
        .ok ([exCallA].map (fun s =>
          if s.call_id = (exRowID (vStr "1")) "Internal ID"
          then update_call s k else s), [])) :=
  C3_skip_existing 1 [] [exCallA] [] (exRowID (vStr "1")) (by decide)

/-- C10 witness: the frame theorem at a concrete stored call, kwargs
record and built call. -/
theorem C10_update_frame_witness :
    (update_call exCallA exK).department_id = exCallA.department_id ∧
    (update_call exCallA exK).primary_unit_id = exCallA.primary_unit_id ∧
    (update_call exCallA exK).call_id = exCallA.call_id ∧
    (update_call exCallA exK).agency = exK.agency ∧
    (update_call exCallA exK).time_received = exK.time_received ∧
    (update_call exCallA exK).first_unit_dispatch = exK.first_unit_dispatch ∧
    (update_call exCallA exK).first_unit_arrive = exK.first_unit_arrive ∧
    (update_call exCallA exK).time_closed = exK.time_closed ∧
    (update_call exCallA exK).street_address = exK.street_address ∧
    (update_call exCallA exK).zip_code = exK.zip_code ∧
    (update_call exCallA exK).nature_id = exK.nature_id ∧
    (update_call exCallA exK).city_id = exK.city_id ∧
    (update_call exCallA exK).priority_id = exK.priority_id ∧
    (update_call exCallA exK).district_id = exK.district_id ∧
    (update_call exCallA exK).beat_id = exK.beat_id ∧
    (update_call exCallA exK).call_source_id = exK.call_source_id ∧
    (update_call exCallA exK).close_code_id = exK.close_code_id ∧
    (update_call exCallA exK).geox = exK.geox ∧
    (update_call exCallA exK).geoy = exK.geoy ∧
    (update_call exCallA exK).derived = exCallA.derived + 1 ∧
    safe_int (safe_get [] (exRowID (vStr "1")) "Department ID") =
      .ok exCallBuilt.department_id ∧
    safe_int (safe_get [] (exRowID (vStr "1")) "Primary Unit ID") =
      .ok exCallBuilt.primary_unit_id :=
  C10_update_frame exCallA exK 1 [] (exRowID (vStr "1")) exCallBuilt (by rfl)
